import Mathlib

/-!
Verification of the wstunnel route-string configuration layer.

This file gives a shallow embedding, over `List Char`, of the tunnel
route-string parsers of `wstunnel/src/config.rs`
(`parse_local_bind`, `parse_tunnel_dest`, `parse_tunnel_arg`,
`parse_reverse_tunnel_arg`, `format_local_to_remote`) and of the
configuration merge functions of `wstunnel-cli/src/main.rs`
(`merge_client_config`, `merge_server_config`), and proves the stated
properties of those functions.

The Rust code delegates host parsing to the `url` crate
(`Url::parse`, `Host`, `query_pairs`) and address parsing to
`std::net` (`Ipv4Addr::from_str`, `Ipv6Addr::from_str`).  Those
library routines are embedded here as well, at the fidelity the route
grammar exercises: WHATWG authority splitting (userinfo, bracketed
IPv6 hosts, first-colon port split, default-port elision for https),
the WHATWG ends-in-a-number IPv4 host rule restricted to decimal
parts, form-urlencoded query pairs with percent decoding, and the
strict `std::net` textual address grammars.
-/

/-! ### Characters -/

/-- Decimal digit value of a character, if any. -/
def digitVal : Char → Option Nat
  | '0' => some 0 | '1' => some 1 | '2' => Option.some 2 | '3' => some 3
  | '4' => some 4 | '5' => some 5 | '6' => Option.some 6 | '7' => some 7
  | '8' => some 8 | '9' => some 9
  | _ => none

/-- Hexadecimal digit value of a character, if any (both cases accepted). -/
def hexVal : Char → Option Nat
  | 'a' => some 10 | 'b' => some 11 | 'c' => some 12
  | 'd' => some 13 | 'e' => some 14 | 'f' => some 15
  | 'A' => some 10 | 'B' => some 11 | 'C' => some 12
  | 'D' => some 13 | 'E' => some 14 | 'F' => some 15
  | c => digitVal c

def isDigitCh (c : Char) : Bool := (digitVal c).isSome

def isHexCh (c : Char) : Bool := (hexVal c).isSome

/-- The decimal digit character for `n % 10`. -/
def digitCh (n : Nat) : Char :=
  match n with
  | 0 => '0' | 1 => '1' | 2 => '2' | 3 => '3' | 4 => '4'
  | 5 => '5' | 6 => '6' | 7 => '7' | 8 => '8' | 9 => '9'
  | _ => '*'

/-- The lowercase hexadecimal digit character for `n % 16`. -/
def hexCh (n : Nat) : Char :=
  match n with
  | 10 => 'a' | 11 => 'b' | 12 => 'c' | 13 => 'd' | 14 => 'e' | 15 => 'f'
  | m => digitCh m

/-- ASCII lowercasing of one character (as done by URL host normalization). -/
def lowerCh (c : Char) : Char :=
  if 65 ≤ c.toNat ∧ c.toNat ≤ 90 then Char.ofNat (c.toNat + 32) else c

/-! ### Decimal and hexadecimal numerals -/

/-- Big-endian decimal digit list of `n` (never empty). -/
def decDigits (n : Nat) : List Char :=
  if _h : n < 10 then [digitCh n]
  else decDigits (n / 10) ++ [digitCh (n % 10)]
decreasing_by exact Nat.div_lt_self (by omega) (by omega)

/-- Big-endian lowercase hexadecimal digit list of `n` (never empty). -/
def hexDigits (n : Nat) : List Char :=
  if _h : n < 16 then [hexCh n]
  else hexDigits (n / 16) ++ [hexCh (n % 16)]
decreasing_by exact Nat.div_lt_self (by omega) (by omega)

/-- Fold decimal digits onto an accumulator; `none` on a non-digit. -/
def readDec : List Char → Nat → Option Nat
  | [], acc => some acc
  | c :: cs, acc =>
    match digitVal c with
    | some d => readDec cs (10 * acc + d)
    | none => none

/-- Fold hexadecimal digits onto an accumulator; `none` on a non-hex digit. -/
def readHex : List Char → Nat → Option Nat
  | [], acc => some acc
  | c :: cs, acc =>
    match hexVal c with
    | some d => readHex cs (16 * acc + d)
    | none => none

/-- Parse a non-empty all-decimal-digit numeral. -/
def parseDec (l : List Char) : Option Nat :=
  if l = [] then none else readDec l 0

/-- Parse a non-empty all-hex-digit numeral. -/
def parseHex (l : List Char) : Option Nat :=
  if l = [] then none else readHex l 0

/-- Rust `str::parse::<uN>()`: an optional leading `+`, then decimal digits,
rejecting values above `bound` (overflow). -/
def parseRustUInt (bound : Nat) (l : List Char) : Option Nat :=
  let core := fun (d : List Char) =>
    match parseDec d with
    | some v => if v ≤ bound then some v else none
    | none => none
  match l with
  | '+' :: rest => core rest
  | _ => core l

/-! ### List-of-characters utilities (mirroring `str` methods) -/

/-- Rust `str::split_once(c)`: split at the first occurrence of `c`. -/
def splitOnceCh (c : Char) : List Char → Option (List Char × List Char)
  | [] => none
  | x :: xs =>
    if x = c then some ([], xs)
    else (splitOnceCh c xs).map (fun p => (x :: p.1, p.2))

/-- Rust `str::split_once([c, ...])`: split at the first occurrence of any
character in `cs`. -/
def splitOnceAny (cs : List Char) : List Char → Option (List Char × List Char)
  | [] => none
  | x :: xs =>
    if x ∈ cs then some ([], xs)
    else (splitOnceAny cs xs).map (fun p => (x :: p.1, p.2))

/-- Rust `str::split_once(pat)` for a multi-character pattern: split at the
first occurrence of `pat`. -/
def splitOnceSeq (pat : List Char) : List Char → Option (List Char × List Char)
  | [] => none
  | x :: xs =>
    if pat.isPrefixOf (x :: xs) then some ([], (x :: xs).drop pat.length)
    else (splitOnceSeq pat xs).map (fun p => (x :: p.1, p.2))

/-- Whether `pat` occurs as a contiguous subsequence. -/
def containsSeq (pat l : List Char) : Bool := (splitOnceSeq pat l).isSome

/-- Whether `l` ends with `sfx`. -/
def endsWithSeq (sfx l : List Char) : Bool := decide (sfx <:+ l)

/-- Split on every occurrence of `c` (like Rust `str::split(c)`). -/
def splitAllCh (c : Char) : List Char → List (List Char)
  | [] => [[]]
  | x :: xs =>
    if x = c then [] :: splitAllCh c xs
    else
      match splitAllCh c xs with
      | [] => [[x]]
      | h :: t => (x :: h) :: t

/-- Interpose a separator character between pieces. -/
def joinSep (c : Char) : List (List Char) → List Char
  | [] => []
  | [p] => p
  | p :: ps => p ++ c :: joinSep c ps

/-- Split into the longest head whose characters all satisfy `p`, and the rest. -/
def spanList (p : Char → Bool) : List Char → List Char × List Char
  | [] => ([], [])
  | x :: xs =>
    if p x then
      let r := spanList p xs
      (x :: r.1, r.2)
    else ([], x :: xs)

/-- Shorthand for string data as a character list. -/
def str (s : String) : List Char := s.data

instance {ε α : Type} [DecidableEq ε] [DecidableEq α] : DecidableEq (Except ε α) := fun a b =>
  match a, b with
  | .ok x, .ok y =>
    if h : x = y then .isTrue (by rw [h]) else .isFalse (by intro hh; cases hh; exact h rfl)
  | .ok _, .error _ => .isFalse (by intro h; cases h)
  | .error _, .ok _ => .isFalse (by intro h; cases h)
  | .error x, .error y =>
    if h : x = y then .isTrue (by rw [h]) else .isFalse (by intro hh; cases hh; exact h rfl)

/-! ### IP addresses (`std::net` textual grammars) -/

/-- One strict IPv4 octet as written by `std::net`: non-empty decimal,
no leading zero, value at most 255. -/
def ipv4Octet (l : List Char) : Option Nat :=
  match l with
  | [] => none
  | ['0'] => some 0
  | '0' :: _ :: _ => none
  | _ =>
    match parseDec l with
    | some v => if v ≤ 255 then some v else none
    | none => none

/-- `std::net::Ipv4Addr::from_str`: exactly four strict octets. -/
def ipv4FromStr (l : List Char) : Option (Nat × Nat × Nat × Nat) :=
  match splitAllCh '.' l with
  | [p1, p2, p3, p4] =>
    match ipv4Octet p1, ipv4Octet p2, ipv4Octet p3, ipv4Octet p4 with
    | some a, some b, some c, some d => some (a, b, c, d)
    | _, _, _, _ => none
  | _ => none

/-- Dotted-decimal rendering of an IPv4 address (`std::net` display). -/
def ipv4Str (a b c d : Nat) : List Char :=
  decDigits a ++ '.' :: decDigits b ++ '.' :: decDigits c ++ '.' :: decDigits d

/-- One IPv6 group: one to four hex digits. -/
def hexGroup (l : List Char) : Option Nat :=
  if l.length ≤ 4 then parseHex l else none

/-- Parse a `:`-separated run of IPv6 groups; when `allowDotted` is set the
last group may instead be a dotted-decimal IPv4 tail standing for two
groups.  An empty run yields no groups. -/
def ipv6Groups (allowDotted : Bool) : List (List Char) → Option (List Nat)
  | [] => some []
  | [p] =>
    if allowDotted ∧ p.contains '.' then
      match ipv4FromStr p with
      | some (a, b, c, d) => some [a * 256 + b, c * 256 + d]
      | none => none
    else (hexGroup p).map ([·])
  | p :: ps =>
    match hexGroup p, ipv6Groups allowDotted ps with
    | some g, some gs => some (g :: gs)
    | _, _ => none

/-- Groups of one side of an IPv6 address text (empty side allowed). -/
def ipv6Side (allowDotted : Bool) (l : List Char) : Option (List Nat) :=
  if l = [] then some [] else ipv6Groups allowDotted (splitAllCh ':' l)

/-- `std::net::Ipv6Addr::from_str`: eight groups, a single `::` standing for
a run of zero groups, and an optional dotted IPv4 tail. -/
def ipv6FromStr (l : List Char) : Option (List Nat) :=
  match splitOnceSeq [':', ':'] l with
  | some (lft, rgt) =>
    if containsSeq [':', ':'] rgt then none
    else
      match ipv6Side false lft, ipv6Side true rgt with
      | some gl, some gr =>
        if gl.length + gr.length ≤ 7 then
          some (gl ++ List.replicate (8 - gl.length - gr.length) 0 ++ gr)
        else none
      | _, _ => none
  | none =>
    match ipv6Side true l with
    | some gs => if gs.length = 8 then some gs else none
    | none => none

/-- Length of the run of zero groups starting at the head. -/
def zeroRunLen : List Nat → Nat
  | 0 :: t => zeroRunLen t + 1
  | _ => 0

/-- Start and length of the longest (leftmost on ties) run of zero groups. -/
def longestZeroRun (gs : List Nat) : Nat × Nat :=
  (List.range gs.length).foldl
    (fun best i =>
      let k := zeroRunLen (gs.drop i)
      if best.2 < k then (i, k) else best)
    (0, 0)

/-- `std::net::Ipv6Addr` display: `::` special forms (unspecified, loopback,
IPv4-compatible, IPv4-mapped), otherwise longest-zero-run compression. -/
def ipv6Str (gs : List Nat) : List Char :=
  if gs = [0, 0, 0, 0, 0, 0, 0, 0] then str "::"
  else if gs = [0, 0, 0, 0, 0, 0, 0, 1] then str "::1"
  else if gs.take 6 = [0, 0, 0, 0, 0, 0] then
    let g := gs.getD 6 0
    let h := gs.getD 7 0
    str "::" ++ ipv4Str (g / 256) (g % 256) (h / 256) (h % 256)
  else if gs.take 6 = [0, 0, 0, 0, 0, 65535] then
    let g := gs.getD 6 0
    let h := gs.getD 7 0
    str "::ffff:" ++ ipv4Str (g / 256) (g % 256) (h / 256) (h % 256)
  else
    let r := longestZeroRun gs
    if 2 ≤ r.2 then
      joinSep ':' ((gs.take r.1).map hexDigits) ++ ':' :: ':' ::
        joinSep ':' ((gs.drop (r.1 + r.2)).map hexDigits)
    else joinSep ':' (gs.map hexDigits)

/-! ### The URL host model (`url` crate, WHATWG) -/

/-- Code points forbidden in a (non-opaque) URL host. -/
def isForbiddenHostCh (c : Char) : Bool :=
  c.toNat ≤ 32 ||
    c.toNat ∈ [34, 35, 37, 47, 58, 60, 62, 63, 64, 91, 92, 93, 94, 96, 123, 124, 125, 127]

/-- `url::Host<String>`: a registrable domain, an IPv4 address or an IPv6
address. -/
inductive UHost where
  | domain (d : List Char)
  | ipv4 (a b c d : Nat)
  | ipv6 (gs : List Nat)
deriving DecidableEq, Repr

/-- Last element of a list (structural recursion). -/
def lastOf {A : Type} : List A → Option A
  | [] => none
  | [x] => some x
  | _ :: x :: xs => lastOf (x :: xs)

/-- All elements of a list but the last (structural recursion). -/
def dropLastOf {A : Type} : List A → List A
  | [] => []
  | [_] => []
  | x :: y :: xs => x :: dropLastOf (y :: xs)

/-- The WHATWG ends-in-a-number check (restricted to decimal parts): the last
non-empty dot-separated label consists of digits. -/
def endsInNumber (l : List Char) : Bool :=
  let labels := splitAllCh '.' l
  let labels := if lastOf labels = some [] then dropLastOf labels else labels
  match lastOf labels with
  | some last => !last.isEmpty && last.all isDigitCh
  | none => false

/-- The WHATWG IPv4 parser (decimal parts): at most four non-empty numeric
parts, all but the last below 256, the last small enough for the remaining
bytes. -/
def whatwgIpv4 (l : List Char) : Option (Nat × Nat × Nat × Nat) :=
  let labels := splitAllCh '.' l
  let labels := if lastOf labels = some [] then dropLastOf labels else labels
  let vals := labels.map parseDec
  if vals.any (·.isNone) then none
  else
    let ns := vals.map (·.getD 0)
    if ns.length = 0 ∨ 4 < ns.length then none
    else if (dropLastOf ns).any (255 < ·) then none
    else
      match lastOf ns with
      | none => none
      | some last =>
        if 256 ^ (5 - ns.length) ≤ last then none
        else
          let v := (dropLastOf ns).foldl (fun acc n => acc * 256 + n) 0
          let v := v * 256 ^ (5 - ns.length) + last
          some (v / 2 ^ 24 % 256, v / 2 ^ 16 % 256, v / 2 ^ 8 % 256, v % 256)

/-- WHATWG host parsing of non-bracketed host text: lowercase, reject
forbidden code points, and apply the ends-in-a-number IPv4 rule. -/
def parseHostText (l : List Char) : Except String UHost :=
  if l = [] then .error "empty host" else
  let low := l.map lowerCh
  if low.any isForbiddenHostCh then .error "forbidden host character" else
  if endsInNumber low then
    match whatwgIpv4 low with
    | some (a, b, c, d) => .ok (.ipv4 a b c d)
    | none => .error "invalid IPv4 host"
  else .ok (.domain low)

/-! ### Query pairs (`Url::query_pairs`, form-urlencoded) -/

/-- Percent decoding with `+` as space (form-urlencoded values). -/
def pctDecode : List Char → List Char
  | [] => []
  | '%' :: h1 :: h2 :: rest =>
    match hexVal h1, hexVal h2 with
    | some a, some b => Char.ofNat (16 * a + b) :: pctDecode rest
    | _, _ => '%' :: pctDecode (h1 :: h2 :: rest)
  | '+' :: rest => ' ' :: pctDecode rest
  | c :: rest => c :: pctDecode rest

/-- The raw key/value pairs of a query string: split on `&`, drop empty
pieces, split each piece at the first `=`, decode both sides. -/
def queryPairs (q : List Char) : List (List Char × List Char) :=
  ((splitAllCh '&' q).filter (· ≠ [])).map fun piece =>
    match splitOnceCh '=' piece with
    | some (k, v) => (pctDecode k, pctDecode v)
    | none => (pctDecode piece, [])

/-- The option map built by `remote.query_pairs().into_owned().collect()`
into a `BTreeMap`: later pairs overwrite earlier ones, so keep the pairs
newest-first and look up the first hit. -/
def Options := List (List Char × List Char)

def optionsOf (q : List Char) : Options := (queryPairs q).reverse

def optGet (m : Options) (k : List Char) : Option (List Char) :=
  match m.find? (fun p => p.1 = k) with
  | some p => some p.2
  | none => none

def optHas (m : Options) (k : List Char) : Bool := (optGet m k).isSome

instance : DecidableEq Options :=
  inferInstanceAs (DecidableEq (List (List Char × List Char)))

/-! ### `Url::parse` of `https://{remaining}` (authority and query) -/

/-- Characters that terminate the authority component. -/
def isAuthorityEnd (c : Char) : Bool := c = '/' || c = '?' || c = '#'

/-- The query component of what follows the authority: text between the
first `?` (before any `#`) and the following `#`. -/
def queryText (rest : List Char) : List Char :=
  let r := rest.dropWhile (fun c => !(c = '?' || c = '#'))
  match r with
  | '?' :: r2 => r2.takeWhile (· ≠ '#')
  | _ => []

/-- Drop the userinfo part (through the last `@`) of an authority. -/
def dropUserinfo (l : List Char) : List Char :=
  match splitOnceCh '@' l.reverse with
  | some (revHost, _) => revHost.reverse
  | none => l

/-- The port of an `https` URL: empty means none, digits at most 65535,
and the scheme default 443 is elided (`Url::port` returns `None` for it). -/
def urlPort (l : List Char) : Except String (Option Nat) :=
  if l = [] then .ok none
  else
    match parseDec l with
    | some v => if v ≤ 65535 then .ok (if v = 443 then none else some v) else .error "port out of range"
    | none => .error "invalid port"

/-- Split a bracket-aware authority into host text and optional port text,
then parse both.  Mirrors the `url` crate on `https://{auth}`. -/
def parseAuthority (auth : List Char) : Except String (UHost × Option Nat) := do
  let hp := dropUserinfo auth
  if hp.head? = some '[' then
    match splitOnceCh ']' hp with
    | none => .error "unclosed bracket"
    | some (br, rest) =>
      match ipv6FromStr (br.drop 1) with
      | none => .error "invalid IPv6 host"
      | some gs =>
        match rest with
        | [] => .ok (.ipv6 gs, ← urlPort [])
        | ':' :: ptext => .ok (.ipv6 gs, ← urlPort ptext)
        | _ => .error "junk after bracket"
  else
    match splitOnceCh ':' hp with
    | some (htext, ptext) => .ok (← parseHostText htext, ← urlPort ptext)
    | none => .ok (← parseHostText hp, ← urlPort [])

/-- `Url::parse("https://" ++ l)` restricted to what `parse_tunnel_dest`
reads back: the host, the port and the query text. -/
def urlParse (l : List Char) : Except String (UHost × Option Nat × List Char) := do
  let s := spanList (fun c => !isAuthorityEnd c) l
  let (host, port) ← parseAuthority s.1
  .ok (host, port, queryText s.2)

/-! ### The tunnel data model (`crate::tunnel::LocalProtocol`, `config.rs`) -/

/-- `LocalProtocol` (variants and fields as constructed and matched in
`config.rs`; timeouts are seconds, `none` meaning disabled). -/
inductive LocalProtocol where
  | tcp (proxy_protocol : Bool)
  | udp (timeout : Option Nat)
  | stdio (proxy_protocol : Bool)
  | socks5 (timeout : Option Nat) (credentials : Option (List Char × List Char))
  | httpProxy (timeout : Option Nat) (credentials : Option (List Char × List Char))
      (proxy_protocol : Bool)
  | tproxyTcp
  | tproxyUdp (timeout : Option Nat)
  | unix (path : List Char) (proxy_protocol : Bool)
  | reverseTcp
  | reverseUdp (timeout : Option Nat)
  | reverseSocks5 (timeout : Option Nat) (credentials : Option (List Char × List Char))
  | reverseHttpProxy (timeout : Option Nat) (credentials : Option (List Char × List Char))
  | reverseUnix (path : List Char)
deriving DecidableEq, Repr

inductive IpAddr where
  | v4 (a b c d : Nat)
  | v6 (gs : List Nat)
deriving DecidableEq, Repr

structure SockAddr where
  ip : IpAddr
  port : Nat
deriving DecidableEq, Repr

/-- `config::LocalToRemote` (the `local` field is named `local_bind` here). -/
structure LocalToRemote where
  local_protocol : LocalProtocol
  local_bind : SockAddr
  remote : UHost × Nat
deriving DecidableEq, Repr

/-! ### `config.rs` parsers -/

/-- `parse_tunnel_arg::get_timeout`. -/
def getTimeout (options : Options) : Option Nat :=
  ((optGet options (str "timeout_sec")).bind
      (fun x => parseRustUInt (2 ^ 64 - 1) x)).map
      (fun d => if d = 0 then none else some d)
    |>.getD (some 30)

/-- `parse_tunnel_arg::get_credentials`. -/
def getCredentials (options : Options) : Option (List Char × List Char) :=
  (optGet options (str "login")).bind
    (fun login => (optGet options (str "password")).map (fun p => (login, p)))

/-- `parse_tunnel_arg::get_proxy_protocol`. -/
def getProxyProtocol (options : Options) : Bool := optHas options (str "proxy_protocol")

/-- `parsers::parse_local_bind`. -/
def parseLocalBind (arg : List Char) : Except String (SockAddr × List Char) := do
  let (bind, remaining) ←
    if arg.head? = some '[' then
      match splitOnceCh ']' arg with
      | none => .error "cannot parse IPv6 bind"
      | some (ipv6_str, remaining) =>
        match ipv6FromStr (ipv6_str.drop 1) with
        | none => .error "cannot parse IPv6 bind"
        | some gs => .ok (IpAddr.v6 gs, remaining)
    else
      let p := (splitOnceCh ':' arg).getD (arg, [])
      match ipv4FromStr p.1 with
      | some (a, b, c, d) => .ok (IpAddr.v4 a b c d, p.2)
      | none => .ok (IpAddr.v4 127 0 0 1, arg)
  let remaining := remaining.dropWhile (· = ':')
  let (port_str, remaining) := (splitOnceAny [':', '?'] remaining).getD (remaining, [])
  match parseRustUInt 65535 port_str with
  | none => .error "cannot parse bind port"
  | some bind_port => .ok (⟨bind, bind_port⟩, remaining)

/-- `parsers::parse_tunnel_dest`. -/
def parseTunnelDest (remaining : List Char) :
    Except String (UHost × Nat × Options) := do
  let (remote_host, port?, query) ← urlParse remaining
  let remote_port ←
    match port? with
    | some p => pure p
    | none =>
      if endsWithSeq (str ":443") remaining || containsSeq (str ":443?") remaining then
        pure 443
      else .error "cannot parse remote port"
  .ok (remote_host, remote_port, optionsOf query)

/-- `parsers::parse_tunnel_arg`. -/
def parseTunnelArg (arg : List Char) : Except String LocalToRemote := do
  match splitOnceSeq (str "://") arg with
  | none => .error "cannot parse protocol"
  | some (proto, tunnel_info) =>
    if proto = str "tcp" then do
      let (local_bind, remaining) ← parseLocalBind tunnel_info
      let (dest_host, dest_port, options) ← parseTunnelDest remaining
      .ok ⟨.tcp (getProxyProtocol options), local_bind, (dest_host, dest_port)⟩
    else if proto = str "udp" then do
      let (local_bind, remaining) ← parseLocalBind tunnel_info
      let (dest_host, dest_port, options) ← parseTunnelDest remaining
      .ok ⟨.udp (getTimeout options), local_bind, (dest_host, dest_port)⟩
    else if proto = str "unix" then do
      match splitOnceCh ':' tunnel_info with
      | none => .error "cannot parse unix socket path"
      | some (path, remote) => do
        let (dest_host, dest_port, options) ← parseTunnelDest remote
        .ok ⟨.unix path (getProxyProtocol options),
          ⟨.v6 [0, 0, 0, 0, 0, 0, 0, 0], 0⟩, (dest_host, dest_port)⟩
    else if proto = str "http" then do
      let (local_bind, remaining) ← parseLocalBind tunnel_info
      let (dest_host, dest_port, options) ← parseTunnelDest (str "0.0.0.0:0?" ++ remaining)
      .ok ⟨.httpProxy (getTimeout options) (getCredentials options) (getProxyProtocol options),
        local_bind, (dest_host, dest_port)⟩
    else if proto = str "socks5" then do
      let (local_bind, remaining) ← parseLocalBind tunnel_info
      let (dest_host, dest_port, options) ← parseTunnelDest (str "0.0.0.0:0?" ++ remaining)
      .ok ⟨.socks5 (getTimeout options) (getCredentials options), local_bind,
        (dest_host, dest_port)⟩
    else if proto = str "stdio" then do
      let (dest_host, dest_port, options) ← parseTunnelDest tunnel_info
      .ok ⟨.stdio (getProxyProtocol options), ⟨.v4 0 0 0 0, 0⟩, (dest_host, dest_port)⟩
    else if proto = str "tproxy+tcp" then do
      let (local_bind, remaining) ← parseLocalBind tunnel_info
      let (dest_host, dest_port, _options) ← parseTunnelDest (str "0.0.0.0:0?" ++ remaining)
      .ok ⟨.tproxyTcp, local_bind, (dest_host, dest_port)⟩
    else if proto = str "tproxy+udp" then do
      let (local_bind, remaining) ← parseLocalBind tunnel_info
      let (dest_host, dest_port, options) ← parseTunnelDest (str "0.0.0.0:0?" ++ remaining)
      .ok ⟨.tproxyUdp (getTimeout options), local_bind, (dest_host, dest_port)⟩
    else .error "Invalid local protocol for tunnel"

/-- `parsers::parse_reverse_tunnel_arg`. -/
def parseReverseTunnelArg (arg : List Char) : Except String LocalToRemote := do
  let proto ← parseTunnelArg arg
  let local_protocol ←
    match proto.local_protocol with
    | .tcp _ => pure LocalProtocol.reverseTcp
    | .udp timeout => pure (LocalProtocol.reverseUdp timeout)
    | .socks5 timeout credentials => pure (LocalProtocol.reverseSocks5 timeout credentials)
    | .httpProxy timeout credentials _proxy_protocol =>
      pure (LocalProtocol.reverseHttpProxy timeout credentials)
    | .unix path _ => pure (LocalProtocol.reverseUnix path)
    | _ => .error "Cannot use as reverse tunnels"
  .ok ⟨local_protocol, proto.local_bind, proto.remote⟩

/-! ### `serde_impls::format_local_to_remote` and the displays it relies on -/

/-- `std::net` display of an IP address. -/
def ipAddrStr : IpAddr → List Char
  | .v4 a b c d => ipv4Str a b c d
  | .v6 gs => ipv6Str gs

/-- `std::net` display of a socket address (IPv6 in brackets). -/
def sockAddrStr (sa : SockAddr) : List Char :=
  match sa.ip with
  | .v4 a b c d => ipv4Str a b c d ++ ':' :: decDigits sa.port
  | .v6 gs => '[' :: ipv6Str gs ++ ']' :: ':' :: decDigits sa.port

/-- `url::Host` display (IPv6 in brackets). -/
def uHostStr : UHost → List Char
  | .domain d => d
  | .ipv4 a b c d => ipv4Str a b c d
  | .ipv6 gs => '[' :: ipv6Str gs ++ [']']

/-- `serde_impls::format_local_to_remote`. -/
def formatLocalToRemote (l : LocalToRemote) : List Char :=
  let protocol : List Char :=
    match l.local_protocol with
    | .tcp _ => str "tcp"
    | .udp _ => str "udp"
    | .stdio _ => str "stdio"
    | .socks5 _ _ => str "socks5"
    | .httpProxy _ _ _ => str "http"
    | .tproxyTcp => str "tproxy+tcp"
    | .tproxyUdp _ => str "tproxy+udp"
    | .unix _ _ => str "unix"
    | .reverseTcp => str "tcp"
    | .reverseUdp _ => str "udp"
    | .reverseSocks5 _ _ => str "socks5"
    | .reverseHttpProxy _ _ => str "http"
    | .reverseUnix _ => str "unix"
  let localPart : List Char :=
    match l.local_protocol with
    | .unix path _ => path
    | .reverseUnix path => path
    | .stdio _ => []
    | _ => sockAddrStr l.local_bind
  let remotePart : List Char := uHostStr l.remote.1 ++ ':' :: decDigits l.remote.2
  if localPart = [] then protocol ++ str "://" ++ remotePart
  else protocol ++ str "://" ++ localPart ++ ':' :: remotePart

/-! ### Client and Server configurations and the CLI merge
(`config.rs` structs and defaults, `wstunnel-cli/src/main.rs` merge).

Field types are simplified where the merge only compares and copies them:
durations are seconds, URLs/paths/header values are their serialized text
(a `Url` serializes with a trailing slash, which is why the defaults below
carry one).  The two `*path_prefix` fields of the source are named with
`pfx` here. -/

structure ClientCfg where
  local_to_remote : List LocalToRemote
  remote_to_local : List LocalToRemote
  socket_so_mark : Option Nat
  connection_min_idle : Nat
  connection_retry_max_backoff : Nat
  reverse_tunnel_connection_retry_max_backoff : Nat
  tls_sni_override : Option (List Char)
  tls_sni_disable : Bool
  tls_ech_enable : Bool
  tls_verify_certificate : Bool
  http_proxy : Option (List Char)
  http_proxy_login : Option (List Char)
  http_proxy_password : Option (List Char)
  http_upgrade_path_pfx : List Char
  http_upgrade_credentials : Option (List Char)
  websocket_ping_frequency : Option Nat
  websocket_mask_frame : Bool
  http_headers : List (List Char × List Char)
  http_headers_file : Option (List Char)
  remote_addr : List Char
  tls_certificate : Option (List Char)
  tls_private_key : Option (List Char)
  dns_resolver : List (List Char)
  dns_resolver_prefer_ipv4 : Bool
deriving DecidableEq, Repr

/-- `DEFAULT_CLIENT_UPGRADE_PATH_PREFIX`. -/
def defaultClientUpgradePathPfx : List Char := str "v1"

/-- `DEFAULT_CLIENT_REMOTE_ADDR` parsed as a `Url` and re-serialized. -/
def defaultClientRemoteAddr : List Char := str "ws://127.0.0.1:8080/"

/-- `DEFAULT_SERVER_REMOTE_ADDR` parsed as a `Url` and re-serialized. -/
def defaultServerRemoteAddr : List Char := str "ws://0.0.0.0:8080/"

/-- `impl Default for Client`. -/
def clientDefault : ClientCfg where
  local_to_remote := []
  remote_to_local := []
  socket_so_mark := none
  connection_min_idle := 0
  connection_retry_max_backoff := 300
  reverse_tunnel_connection_retry_max_backoff := 1
  tls_sni_override := none
  tls_sni_disable := false
  tls_ech_enable := false
  tls_verify_certificate := false
  http_proxy := none
  http_proxy_login := none
  http_proxy_password := none
  http_upgrade_path_pfx := defaultClientUpgradePathPfx
  http_upgrade_credentials := none
  websocket_ping_frequency := some 30
  websocket_mask_frame := false
  http_headers := []
  http_headers_file := none
  remote_addr := defaultClientRemoteAddr
  tls_certificate := none
  tls_private_key := none
  dns_resolver := []
  dns_resolver_prefer_ipv4 := false

structure ServerCfg where
  remote_addr : List Char
  socket_so_mark : Option Nat
  websocket_ping_frequency : Option Nat
  websocket_mask_frame : Bool
  dns_resolver : List (List Char)
  dns_resolver_prefer_ipv4 : Bool
  restrict_to : Option (List (List Char))
  restrict_http_upgrade_path_pfx : Option (List (List Char))
  restrict_config : Option (List Char)
  tls_certificate : Option (List Char)
  tls_private_key : Option (List Char)
  tls_client_ca_certs : Option (List Char)
  http_proxy : Option (List Char)
  http_proxy_login : Option (List Char)
  http_proxy_password : Option (List Char)
  remote_to_local_server_idle_timeout : Nat
deriving DecidableEq, Repr

/-- `impl Default for Server`. -/
def serverDefault : ServerCfg where
  remote_addr := defaultServerRemoteAddr
  socket_so_mark := none
  websocket_ping_frequency := some 30
  websocket_mask_frame := false
  dns_resolver := []
  dns_resolver_prefer_ipv4 := false
  restrict_to := none
  restrict_http_upgrade_path_pfx := none
  restrict_config := none
  tls_certificate := none
  tls_private_key := none
  tls_client_ca_certs := none
  http_proxy := none
  http_proxy_login := none
  http_proxy_password := none
  remote_to_local_server_idle_timeout := 180

/-- `wstunnel-cli/src/main.rs::merge_client_config`. -/
def mergeClientConfig (cli : ClientCfg) (file_config : Option ClientCfg) :
    ClientCfg × Bool :=
  match file_config with
  | none => (cli, false)
  | some file =>
    ({ local_to_remote :=
        if cli.local_to_remote.isEmpty then file.local_to_remote else cli.local_to_remote
       remote_to_local :=
        if cli.remote_to_local.isEmpty then file.remote_to_local else cli.remote_to_local
       socket_so_mark :=
        if cli.socket_so_mark.isNone then file.socket_so_mark else cli.socket_so_mark
       connection_min_idle :=
        if cli.connection_min_idle = 0 then file.connection_min_idle
        else cli.connection_min_idle
       connection_retry_max_backoff :=
        if cli.connection_retry_max_backoff = 300 then file.connection_retry_max_backoff
        else cli.connection_retry_max_backoff
       reverse_tunnel_connection_retry_max_backoff :=
        if cli.reverse_tunnel_connection_retry_max_backoff = 1 then
          file.reverse_tunnel_connection_retry_max_backoff
        else cli.reverse_tunnel_connection_retry_max_backoff
       tls_sni_override :=
        if cli.tls_sni_override.isNone then file.tls_sni_override else cli.tls_sni_override
       tls_sni_disable :=
        if !cli.tls_sni_disable then file.tls_sni_disable else cli.tls_sni_disable
       tls_ech_enable :=
        if !cli.tls_ech_enable then file.tls_ech_enable else cli.tls_ech_enable
       tls_verify_certificate :=
        if !cli.tls_verify_certificate then file.tls_verify_certificate
        else cli.tls_verify_certificate
       http_proxy := if cli.http_proxy.isNone then file.http_proxy else cli.http_proxy
       http_proxy_login :=
        if cli.http_proxy_login.isNone then file.http_proxy_login else cli.http_proxy_login
       http_proxy_password :=
        if cli.http_proxy_password.isNone then file.http_proxy_password
        else cli.http_proxy_password
       http_upgrade_path_pfx :=
        if cli.http_upgrade_path_pfx = defaultClientUpgradePathPfx then
          file.http_upgrade_path_pfx
        else cli.http_upgrade_path_pfx
       http_upgrade_credentials :=
        if cli.http_upgrade_credentials.isNone then file.http_upgrade_credentials
        else cli.http_upgrade_credentials
       websocket_ping_frequency :=
        if cli.websocket_ping_frequency = some 30 then file.websocket_ping_frequency
        else cli.websocket_ping_frequency
       websocket_mask_frame :=
        if !cli.websocket_mask_frame then file.websocket_mask_frame
        else cli.websocket_mask_frame
       http_headers := if cli.http_headers.isEmpty then file.http_headers else cli.http_headers
       http_headers_file :=
        if cli.http_headers_file.isNone then file.http_headers_file else cli.http_headers_file
       remote_addr :=
        if cli.remote_addr = defaultClientRemoteAddr then file.remote_addr
        else cli.remote_addr
       tls_certificate :=
        if cli.tls_certificate.isNone then file.tls_certificate else cli.tls_certificate
       tls_private_key :=
        if cli.tls_private_key.isNone then file.tls_private_key else cli.tls_private_key
       dns_resolver := if cli.dns_resolver.isEmpty then file.dns_resolver else cli.dns_resolver
       dns_resolver_prefer_ipv4 :=
        if !cli.dns_resolver_prefer_ipv4 then file.dns_resolver_prefer_ipv4
        else cli.dns_resolver_prefer_ipv4 }, true)

/-- `wstunnel-cli/src/main.rs::merge_server_config`. -/
def mergeServerConfig (cli : ServerCfg) (file_config : Option ServerCfg) :
    ServerCfg × Bool :=
  match file_config with
  | none => (cli, false)
  | some file =>
    ({ remote_addr :=
        if cli.remote_addr = defaultServerRemoteAddr then file.remote_addr
        else cli.remote_addr
       socket_so_mark :=
        if cli.socket_so_mark.isNone then file.socket_so_mark else cli.socket_so_mark
       websocket_ping_frequency :=
        if cli.websocket_ping_frequency = some 30 then file.websocket_ping_frequency
        else cli.websocket_ping_frequency
       websocket_mask_frame :=
        if !cli.websocket_mask_frame then file.websocket_mask_frame
        else cli.websocket_mask_frame
       dns_resolver := if cli.dns_resolver.isEmpty then file.dns_resolver else cli.dns_resolver
       dns_resolver_prefer_ipv4 :=
        if !cli.dns_resolver_prefer_ipv4 then file.dns_resolver_prefer_ipv4
        else cli.dns_resolver_prefer_ipv4
       restrict_to := if cli.restrict_to.isNone then file.restrict_to else cli.restrict_to
       restrict_http_upgrade_path_pfx :=
        if cli.restrict_http_upgrade_path_pfx.isNone then file.restrict_http_upgrade_path_pfx
        else cli.restrict_http_upgrade_path_pfx
       restrict_config :=
        if cli.restrict_config.isNone then file.restrict_config else cli.restrict_config
       tls_certificate :=
        if cli.tls_certificate.isNone then file.tls_certificate else cli.tls_certificate
       tls_private_key :=
        if cli.tls_private_key.isNone then file.tls_private_key else cli.tls_private_key
       tls_client_ca_certs :=
        if cli.tls_client_ca_certs.isNone then file.tls_client_ca_certs
        else cli.tls_client_ca_certs
       http_proxy := if cli.http_proxy.isNone then file.http_proxy else cli.http_proxy
       http_proxy_login :=
        if cli.http_proxy_login.isNone then file.http_proxy_login else cli.http_proxy_login
       http_proxy_password :=
        if cli.http_proxy_password.isNone then file.http_proxy_password
        else cli.http_proxy_password
       remote_to_local_server_idle_timeout :=
        if cli.remote_to_local_server_idle_timeout = 180 then
          file.remote_to_local_server_idle_timeout
        else cli.remote_to_local_server_idle_timeout }, true)

/-! ### Shapes of parse results (used to state the round-trip properties) -/

/-- What a successful parse guarantees about a host. -/
def ValidHost : UHost → Prop
  | .domain d => d ≠ [] ∧ (∀ c ∈ d, isForbiddenHostCh c = false) ∧
      (∀ c ∈ d, lowerCh c = c) ∧ endsInNumber d = false
  | .ipv4 a b c d => a ≤ 255 ∧ b ≤ 255 ∧ c ≤ 255 ∧ d ≤ 255
  | .ipv6 gs => gs.length = 8 ∧ ∀ g ∈ gs, g < 65536

/-- What a successful parse guarantees about a bind address. -/
def ValidAddr (sa : SockAddr) : Prop :=
  (match sa.ip with
    | .v4 a b c d => a ≤ 255 ∧ b ≤ 255 ∧ c ≤ 255 ∧ d ≤ 255
    | .v6 gs => gs.length = 8 ∧ ∀ g ∈ gs, g < 65536) ∧
    sa.port ≤ 65535

/-- What `parse_tunnel_arg` guarantees about its result: valid bind and
remote, a forward protocol variant, a colon-free Unix path, the fixed
placeholder binds of the Unix and stdio variants, and the fixed
`0.0.0.0:0` remote of the dynamic-destination variants. -/
def ValidParse (l : LocalToRemote) : Prop :=
  ValidAddr l.local_bind ∧ ValidHost l.remote.1 ∧ l.remote.2 ≤ 65535 ∧
  match l.local_protocol with
  | .unix path _ => ':' ∉ path ∧ l.local_bind = ⟨.v6 [0, 0, 0, 0, 0, 0, 0, 0], 0⟩
  | .stdio _ => l.local_bind = ⟨.v4 0 0 0 0, 0⟩
  | .socks5 _ _ => l.remote = (.ipv4 0 0 0 0, 0)
  | .httpProxy _ _ _ => l.remote = (.ipv4 0 0 0 0, 0)
  | .tproxyTcp => l.remote = (.ipv4 0 0 0 0, 0)
  | .tproxyUdp _ => l.remote = (.ipv4 0 0 0 0, 0)
  | .reverseTcp => False
  | .reverseUdp _ => False
  | .reverseSocks5 _ _ => False
  | .reverseHttpProxy _ _ => False
  | .reverseUnix _ => False
  | _ => True

/-- A Unix route with an empty socket path (only such a route formats to a
local part that vanishes). -/
def unixPathNonempty (l : LocalToRemote) : Prop :=
  match l.local_protocol with
  | .unix path _ => path ≠ []
  | _ => True

/-- Reset per-protocol options to the values parsed in the absence of query
options: no proxy protocol, no credentials, the 30 s default timeout. -/
def withDefaultOptions : LocalProtocol → LocalProtocol
  | .tcp _ => .tcp false
  | .udp _ => .udp (some 30)
  | .stdio _ => .stdio false
  | .socks5 _ _ => .socks5 (some 30) none
  | .httpProxy _ _ _ => .httpProxy (some 30) none false
  | .tproxyTcp => .tproxyTcp
  | .tproxyUdp _ => .tproxyUdp (some 30)
  | .unix path _ => .unix path false
  | p => p

/-- The tunnel with its options reset to the optionless defaults. -/
def defaulted (l : LocalToRemote) : LocalToRemote :=
  { l with local_protocol := withDefaultOptions l.local_protocol }

/-! ## Supporting lemmas -/

/-! ### Digit characters -/

lemma digitVal_digitCh {n : Nat} (h : n < 10) : digitVal (digitCh n) = some n := by
  interval_cases n <;> rfl

lemma hexVal_hexCh {n : Nat} (h : n < 16) : hexVal (hexCh n) = some n := by
  interval_cases n <;> rfl

lemma digitVal_cases {c : Char} {d : Nat} (h : digitVal c = some d) :
    c = '0' ∨ c = '1' ∨ c = '2' ∨ c = '3' ∨ c = '4' ∨
    c = '5' ∨ c = '6' ∨ c = '7' ∨ c = '8' ∨ c = '9' := by
  unfold digitVal at h
  split at h <;> simp_all

lemma hexVal_cases {c : Char} {d : Nat} (h : hexVal c = some d) :
    (∃ d2, digitVal c = some d2) ∨
    c = 'a' ∨ c = 'b' ∨ c = 'c' ∨ c = 'd' ∨ c = 'e' ∨ c = 'f' ∨
    c = 'A' ∨ c = 'B' ∨ c = 'C' ∨ c = 'D' ∨ c = 'E' ∨ c = 'F' := by
  unfold hexVal at h
  split at h <;> simp_all

lemma isDigitCh_props {c : Char} (h : isDigitCh c = true) :
    lowerCh c = c ∧ isForbiddenHostCh c = false ∧ isAuthorityEnd c = false ∧
    c ≠ ':' ∧ c ≠ '.' ∧ c ≠ '+' ∧ c ≠ '[' ∧ c ≠ ']' ∧ c ≠ '@' ∧ c ≠ '%' := by
  unfold isDigitCh at h
  rcases ho : digitVal c with - | d
  · rw [ho] at h; simp at h
  · rcases digitVal_cases ho with rfl | rfl | rfl | rfl | rfl | rfl | rfl | rfl | rfl | rfl <;>
      exact ⟨by decide, by decide, by decide, by decide, by decide, by decide, by decide,
        by decide, by decide, by decide⟩

lemma isHexCh_props {c : Char} (h : isHexCh c = true) :
    isAuthorityEnd c = false ∧ c ≠ ':' ∧ c ≠ '.' ∧ c ≠ '[' ∧ c ≠ ']' ∧ c ≠ '@' := by
  unfold isHexCh at h
  rcases ho : hexVal c with - | d
  · rw [ho] at h; simp at h
  · rcases hexVal_cases ho with ⟨d2, hd⟩ | rfl | rfl | rfl | rfl | rfl | rfl | rfl | rfl
      | rfl | rfl | rfl | rfl
    · have := isDigitCh_props (c := c) (by unfold isDigitCh; rw [hd]; rfl)
      tauto
    all_goals exact ⟨by decide, by decide, by decide, by decide, by decide, by decide⟩

/-! ### Reading numerals back -/

lemma readDec_append (l1 l2 : List Char) (a : Nat) :
    readDec (l1 ++ l2) a =
      match readDec l1 a with
      | some v => readDec l2 v
      | none => none := by
  induction l1 generalizing a with
  | nil => simp [readDec]
  | cons c cs ih =>
    simp only [List.cons_append, readDec]
    rcases digitVal c with - | d <;> simp [ih]

lemma readHex_append (l1 l2 : List Char) (a : Nat) :
    readHex (l1 ++ l2) a =
      match readHex l1 a with
      | some v => readHex l2 v
      | none => none := by
  induction l1 generalizing a with
  | nil => simp [readHex]
  | cons c cs ih =>
    simp only [List.cons_append, readHex]
    rcases hexVal c with - | d <;> simp [ih]

lemma readDec_decDigits (n : Nat) :
    ∀ a, readDec (decDigits n) a = some (a * 10 ^ (decDigits n).length + n) := by
  induction n using Nat.strong_induction_on with
  | _ n ih =>
    intro a
    rw [decDigits]
    by_cases h : n < 10
    · simp only [h, dite_true, readDec, digitVal_digitCh h]
      simp [Nat.mul_comm]
    · simp only [h, dite_false]
      rw [readDec_append, ih (n / 10) (Nat.div_lt_self (by omega) (by omega))]
      simp only [readDec, digitVal_digitCh (Nat.mod_lt n (by omega))]
      have hlen : (decDigits (n / 10) ++ [digitCh (n % 10)]).length
          = (decDigits (n / 10)).length + 1 := by simp
      rw [hlen]
      congr 1
      have := Nat.div_add_mod n 10
      ring_nf
      omega

lemma readHex_hexDigits (n : Nat) :
    ∀ a, readHex (hexDigits n) a = some (a * 16 ^ (hexDigits n).length + n) := by
  induction n using Nat.strong_induction_on with
  | _ n ih =>
    intro a
    rw [hexDigits]
    by_cases h : n < 16
    · simp only [h, dite_true, readHex, hexVal_hexCh h]
      simp [Nat.mul_comm]
    · simp only [h, dite_false]
      rw [readHex_append, ih (n / 16) (Nat.div_lt_self (by omega) (by omega))]
      simp only [readHex, hexVal_hexCh (Nat.mod_lt n (by omega))]
      have hlen : (hexDigits (n / 16) ++ [hexCh (n % 16)]).length
          = (hexDigits (n / 16)).length + 1 := by simp
      rw [hlen]
      congr 1
      have := Nat.div_add_mod n 16
      ring_nf
      omega

lemma decDigits_ne_nil (n : Nat) : decDigits n ≠ [] := by
  rw [decDigits]
  by_cases h : n < 10 <;> simp [h]

lemma hexDigits_ne_nil (n : Nat) : hexDigits n ≠ [] := by
  rw [hexDigits]
  by_cases h : n < 16 <;> simp [h]

lemma parseDec_decDigits (n : Nat) : parseDec (decDigits n) = some n := by
  rw [parseDec, if_neg (decDigits_ne_nil n), readDec_decDigits]
  simp

lemma parseHex_hexDigits (n : Nat) : parseHex (hexDigits n) = some n := by
  rw [parseHex, if_neg (hexDigits_ne_nil n), readHex_hexDigits]
  simp

lemma decDigits_all_digits (n : Nat) : ∀ c ∈ decDigits n, isDigitCh c = true := by
  induction n using Nat.strong_induction_on with
  | _ n ih =>
    intro c hc
    rw [decDigits] at hc
    by_cases h : n < 10
    · simp only [h, dite_true, List.mem_singleton] at hc
      subst hc
      simp [isDigitCh, digitVal_digitCh h]
    · simp only [h, dite_false, List.mem_append, List.mem_singleton] at hc
      rcases hc with hc | rfl
      · exact ih (n / 10) (Nat.div_lt_self (by omega) (by omega)) c hc
      · simp [isDigitCh, digitVal_digitCh (Nat.mod_lt n (by omega))]

lemma hexDigits_all_hex (n : Nat) : ∀ c ∈ hexDigits n, isHexCh c = true := by
  induction n using Nat.strong_induction_on with
  | _ n ih =>
    intro c hc
    rw [hexDigits] at hc
    by_cases h : n < 16
    · simp only [h, dite_true, List.mem_singleton] at hc
      subst hc
      simp [isHexCh, hexVal_hexCh h]
    · simp only [h, dite_false, List.mem_append, List.mem_singleton] at hc
      rcases hc with hc | rfl
      · exact ih (n / 16) (Nat.div_lt_self (by omega) (by omega)) c hc
      · simp [isHexCh, hexVal_hexCh (Nat.mod_lt n (by omega))]

lemma decDigits_head_ne_zero {n : Nat} (h : n ≠ 0) :
    ∀ c, (decDigits n).head? = some c → c ≠ '0' := by
  induction n using Nat.strong_induction_on with
  | _ n ih =>
    intro c hc
    rw [decDigits] at hc
    by_cases h10 : n < 10
    · simp only [h10, dite_true, List.head?] at hc
      cases hc
      interval_cases n <;> simp_all <;> decide
    · simp only [h10, dite_false] at hc
      obtain ⟨x, xs, hx⟩ := List.exists_cons_of_ne_nil (decDigits_ne_nil (n / 10))
      rw [hx] at hc
      simp only [List.cons_append, List.head?] at hc
      cases hc
      exact ih (n / 10) (Nat.div_lt_self (by omega) (by omega)) (by omega) c
        (by rw [hx]; rfl)

lemma parseRustUInt_cons_ne_plus {bound : Nat} {c : Char} {cs : List Char} (h : c ≠ '+') :
    parseRustUInt bound (c :: cs) =
      match parseDec (c :: cs) with
      | some v => if v ≤ bound then some v else none
      | none => none := by
  unfold parseRustUInt
  simp only []
  split
  · next rest heq => exact absurd (List.head_eq_of_cons_eq heq) h
  · rfl

lemma parseRustUInt_decDigits {bound n : Nat} (h : n ≤ bound) :
    parseRustUInt bound (decDigits n) = some n := by
  have hne := decDigits_ne_nil n
  have hall := decDigits_all_digits n
  rcases hd : decDigits n with - | ⟨c, cs⟩
  · exact absurd hd hne
  · have hcdig : isDigitCh c = true := hall c (by rw [hd]; exact List.mem_cons_self c cs)
    have hplus : c ≠ '+' := (isDigitCh_props hcdig).2.2.2.2.2.1
    have hpd : parseDec (decDigits n) = some n := parseDec_decDigits n
    rw [hd] at hpd
    rw [parseRustUInt_cons_ne_plus hplus, hpd]
    simp [h]

/-! ### Splitting lemmas -/

lemma splitOnceCh_append {c : Char} {l1 : List Char} (l2 : List Char) (h : c ∉ l1) :
    splitOnceCh c (l1 ++ c :: l2) = some (l1, l2) := by
  induction l1 with
  | nil => simp [splitOnceCh]
  | cons x xs ih =>
    have hx : x ≠ c := by rintro rfl; exact h (List.mem_cons_self _ _)
    simp only [List.cons_append, splitOnceCh, if_neg hx, List.append_eq]
    rw [ih (fun hm => h (List.mem_cons_of_mem _ hm))]
    rfl

lemma splitOnceCh_none {c : Char} {l : List Char} (h : c ∉ l) :
    splitOnceCh c l = none := by
  induction l with
  | nil => rfl
  | cons x xs ih =>
    have hx : x ≠ c := by rintro rfl; exact h (List.mem_cons_self _ _)
    simp only [splitOnceCh, if_neg hx]
    rw [ih (fun hm => h (List.mem_cons_of_mem _ hm))]
    rfl

lemma splitOnceAny_append {cs : List Char} {l1 : List Char} {c : Char} (l2 : List Char)
    (h : ∀ x ∈ l1, x ∉ cs) (hc : c ∈ cs) :
    splitOnceAny cs (l1 ++ c :: l2) = some (l1, l2) := by
  induction l1 with
  | nil => simp [splitOnceAny, hc]
  | cons x xs ih =>
    simp only [List.cons_append, splitOnceAny, if_neg (h x (List.mem_cons_self _ _)),
      List.append_eq]
    rw [ih (fun y hy => h y (List.mem_cons_of_mem _ hy))]
    rfl

lemma splitOnceAny_none {cs : List Char} {l : List Char} (h : ∀ x ∈ l, x ∉ cs) :
    splitOnceAny cs l = none := by
  induction l with
  | nil => rfl
  | cons x xs ih =>
    simp only [splitOnceAny, if_neg (h x (List.mem_cons_self _ _))]
    rw [ih (fun y hy => h y (List.mem_cons_of_mem _ hy))]
    rfl

lemma spanList_all {p : Char → Bool} {l : List Char} (h : ∀ c ∈ l, p c = true) :
    spanList p l = (l, []) := by
  induction l with
  | nil => rfl
  | cons x xs ih =>
    simp only [spanList, if_pos (h x (List.mem_cons_self _ _))]
    rw [ih (fun c hc => h c (List.mem_cons_of_mem _ hc))]

lemma spanList_append {p : Char → Bool} {l1 : List Char} {c : Char} (l2 : List Char)
    (h : ∀ x ∈ l1, p x = true) (hc : p c = false) :
    spanList p (l1 ++ c :: l2) = (l1, c :: l2) := by
  induction l1 with
  | nil => simp [spanList, hc]
  | cons x xs ih =>
    simp only [List.cons_append, spanList, if_pos (h x (List.mem_cons_self _ _)),
      List.append_eq]
    rw [ih (fun y hy => h y (List.mem_cons_of_mem _ hy))]

lemma splitAllCh_of_not_mem {c : Char} {l : List Char} (h : c ∉ l) :
    splitAllCh c l = [l] := by
  induction l with
  | nil => rfl
  | cons x xs ih =>
    have hx : x ≠ c := by rintro rfl; exact h (List.mem_cons_self _ _)
    simp only [splitAllCh, if_neg hx]
    rw [ih (fun hm => h (List.mem_cons_of_mem _ hm))]

lemma splitAllCh_ne_nil {c : Char} (l : List Char) : splitAllCh c l ≠ [] := by
  induction l with
  | nil => simp [splitAllCh]
  | cons x xs ih =>
    by_cases hx : x = c
    · simp [splitAllCh, hx]
    · simp only [splitAllCh, if_neg hx]
      rcases hs : splitAllCh c xs with - | ⟨p, ps⟩
      · simp
      · simp

lemma splitAllCh_append {c : Char} {l1 : List Char} (l2 : List Char) (h : c ∉ l1) :
    splitAllCh c (l1 ++ c :: l2) = l1 :: splitAllCh c l2 := by
  induction l1 with
  | nil => simp [splitAllCh]
  | cons x xs ih =>
    have hx : x ≠ c := by rintro rfl; exact h (List.mem_cons_self _ _)
    simp only [List.cons_append, splitAllCh, if_neg hx, List.append_eq]
    rw [ih (fun hm => h (List.mem_cons_of_mem _ hm))]

lemma splitAllCh_joinSep {c : Char} : ∀ (ps : List (List Char)), ps ≠ [] →
    (∀ p ∈ ps, c ∉ p) → splitAllCh c (joinSep c ps) = ps := by
  intro ps
  induction ps with
  | nil => intro h; exact absurd rfl h
  | cons p ps ih =>
    intro _ hmem
    rcases ps with - | ⟨q, qs⟩
    · exact splitAllCh_of_not_mem (hmem p (List.mem_cons_self _ _))
    · show splitAllCh c (p ++ c :: joinSep c (q :: qs)) = p :: q :: qs
      rw [splitAllCh_append _ (hmem p (List.mem_cons_self _ _)),
        ih (by simp) (fun r hr => hmem r (List.mem_cons_of_mem _ hr))]

lemma joinSep_chars {c : Char} : ∀ {ps : List (List Char)} {x : Char},
    x ∈ joinSep c ps → x = c ∨ ∃ p ∈ ps, x ∈ p := by
  intro ps
  induction ps with
  | nil => intro x hx; simp [joinSep] at hx
  | cons p ps ih =>
    intro x hx
    rcases ps with - | ⟨q, qs⟩
    · exact Or.inr ⟨p, List.mem_cons_self _ _, hx⟩
    · rcases List.mem_append.mp hx with hx | hx
      · exact Or.inr ⟨p, List.mem_cons_self _ _, hx⟩
      · rcases List.mem_cons.mp hx with rfl | hx
        · exact Or.inl rfl
        · rcases ih hx with h | ⟨r, hr, hxr⟩
          · exact Or.inl h
          · exact Or.inr ⟨r, List.mem_cons_of_mem _ hr, hxr⟩

lemma joinSep_ne_nil {c : Char} {ps : List (List Char)} (hne : ps ≠ [])
    (hall : ∀ p ∈ ps, p ≠ []) : joinSep c ps ≠ [] := by
  rcases ps with - | ⟨p, ps⟩
  · exact absurd rfl hne
  · rcases ps with - | ⟨q, qs⟩
    · exact hall p (List.mem_cons_self _ _)
    · show p ++ c :: joinSep c (q :: qs) ≠ []
      simp

/-! ### IPv4 round trips -/

lemma decDigits_zero : decDigits 0 = ['0'] := by rw [decDigits]; rfl

lemma ipv4Octet_decDigits {n : Nat} (h : n ≤ 255) : ipv4Octet (decDigits n) = some n := by
  by_cases h0 : n = 0
  · subst h0; rw [decDigits_zero]; rfl
  · rcases hd : decDigits n with - | ⟨c, cs⟩
    · exact absurd hd (decDigits_ne_nil n)
    · have hc0 : c ≠ '0' := decDigits_head_ne_zero h0 c (by rw [hd]; rfl)
      have hpd : parseDec (c :: cs) = some n := by rw [← hd]; exact parseDec_decDigits n
      unfold ipv4Octet
      split
      · rename_i heq; cases heq
      · rename_i heq; exact absurd (List.head_eq_of_cons_eq heq) hc0
      · rename_i x y heq; exact absurd (List.head_eq_of_cons_eq heq) hc0
      · rw [hpd]; simp [h]

lemma ipv4Str_eq_joinSep (a b c d : Nat) :
    ipv4Str a b c d = joinSep '.' [decDigits a, decDigits b, decDigits c, decDigits d] := by
  simp [ipv4Str, joinSep]

lemma ipv4Str_chars {a b c d : Nat} {x : Char} (hx : x ∈ ipv4Str a b c d) :
    isDigitCh x = true ∨ x = '.' := by
  rw [ipv4Str_eq_joinSep] at hx
  rcases joinSep_chars hx with rfl | ⟨p, hp, hxp⟩
  · exact Or.inr rfl
  · simp only [List.mem_cons, List.mem_singleton] at hp
    rcases hp with rfl | rfl | rfl | rfl | h
    · exact Or.inl (decDigits_all_digits a x hxp)
    · exact Or.inl (decDigits_all_digits b x hxp)
    · exact Or.inl (decDigits_all_digits c x hxp)
    · exact Or.inl (decDigits_all_digits d x hxp)
    · cases h

lemma dot_not_mem_decDigits {n : Nat} : '.' ∉ decDigits n := by
  intro hm
  exact (isDigitCh_props (decDigits_all_digits n _ hm)).2.2.2.2.1 rfl

lemma splitAllCh_dot_ipv4Str (a b c d : Nat) :
    splitAllCh '.' (ipv4Str a b c d)
      = [decDigits a, decDigits b, decDigits c, decDigits d] := by
  rw [ipv4Str_eq_joinSep]
  refine splitAllCh_joinSep _ (by simp) ?_
  intro p hp
  simp only [List.mem_cons, List.mem_singleton] at hp
  rcases hp with rfl | rfl | rfl | rfl | h
  · exact dot_not_mem_decDigits
  · exact dot_not_mem_decDigits
  · exact dot_not_mem_decDigits
  · exact dot_not_mem_decDigits
  · cases h

lemma ipv4FromStr_ipv4Str {a b c d : Nat}
    (ha : a ≤ 255) (hb : b ≤ 255) (hc : c ≤ 255) (hd : d ≤ 255) :
    ipv4FromStr (ipv4Str a b c d) = some (a, b, c, d) := by
  unfold ipv4FromStr
  rw [splitAllCh_dot_ipv4Str]
  simp only [ipv4Octet_decDigits ha, ipv4Octet_decDigits hb, ipv4Octet_decDigits hc,
    ipv4Octet_decDigits hd]

lemma endsInNumber_ipv4Str (a b c d : Nat) : endsInNumber (ipv4Str a b c d) = true := by
  unfold endsInNumber
  rw [splitAllCh_dot_ipv4Str]
  simp only [lastOf]
  rw [if_neg (by simp [decDigits_ne_nil d])]
  simp only [lastOf]
  simp only [Bool.and_eq_true, Bool.not_eq_true']
  constructor
  · simp [List.isEmpty_iff, decDigits_ne_nil d]
  · rw [List.all_eq_true]
    exact fun c hcm => decDigits_all_digits d c hcm

lemma whatwgIpv4_ipv4Str {a b c d : Nat}
    (ha : a ≤ 255) (hb : b ≤ 255) (hc : c ≤ 255) (hd : d ≤ 255) :
    whatwgIpv4 (ipv4Str a b c d) = some (a, b, c, d) := by
  unfold whatwgIpv4
  rw [splitAllCh_dot_ipv4Str]
  simp only [lastOf, dropLastOf]
  have hif : (if some (decDigits d) = some ([] : List Char) then
        [decDigits a, decDigits b, decDigits c]
      else [decDigits a, decDigits b, decDigits c, decDigits d])
      = [decDigits a, decDigits b, decDigits c, decDigits d] :=
    if_neg (by simp [decDigits_ne_nil d])
  rw [hif]
  simp only [List.map_cons, List.map_nil, parseDec_decDigits, List.any_cons, List.any_nil,
    Option.isNone_some, Option.getD_some, List.length_cons, List.length_nil, dropLastOf, lastOf]
  rw [if_neg (by norm_num)]
  rw [if_neg (by norm_num)]
  rw [if_neg (by simp; omega)]
  rw [if_neg (show ¬ (256 : Nat) ^ (5 - (0 + 1 + 1 + 1 + 1)) ≤ d by norm_num; omega)]
  simp only [List.foldl]
  norm_num
  refine ⟨by omega, by omega, by omega, by omega⟩

/-! ### IPv6 round trip -/

lemma hexDigits_length_le {n k : Nat} (hk : 0 < k) (h : n < 16 ^ k) :
    (hexDigits n).length ≤ k := by
  induction n using Nat.strong_induction_on generalizing k with
  | _ n ih =>
    rw [hexDigits]
    by_cases h16 : n < 16
    · rw [dif_pos h16]
      simpa using hk
    · rw [dif_neg h16]
      simp only [List.length_append, List.length_cons, List.length_nil]
      rcases k with - | k2
      · omega
      · rcases Nat.eq_zero_or_pos k2 with rfl | hk2
        · simp at h; omega
        · have hdiv : n / 16 < 16 ^ k2 := by
            rw [pow_succ] at h
            omega
          have := ih (n / 16) (Nat.div_lt_self (by omega) (by omega)) hk2 hdiv
          omega

lemma colon_not_mem_hexDigits {n : Nat} : ':' ∉ hexDigits n := by
  intro hm
  exact (isHexCh_props (hexDigits_all_hex n _ hm)).2.1 rfl

lemma dot_not_mem_hexDigits {n : Nat} : '.' ∉ hexDigits n := by
  intro hm
  exact (isHexCh_props (hexDigits_all_hex n _ hm)).2.2.1 rfl

lemma contains_eq_false_of_not_mem {c : Char} {l : List Char} (h : c ∉ l) :
    l.contains c = false := by
  induction l with
  | nil => rfl
  | cons x xs ih =>
    have hx : (c == x) = false :=
      beq_eq_false_iff_ne.mpr (fun hh => h (by rw [hh]; exact List.mem_cons_self _ _))
    simp only [List.contains_cons, hx, Bool.false_or]
    exact ih (fun hm => h (List.mem_cons_of_mem _ hm))

lemma hexGroup_hexDigits {n : Nat} (h : n < 65536) : hexGroup (hexDigits n) = some n := by
  unfold hexGroup
  rw [if_pos (hexDigits_length_le (by norm_num) (by norm_num; omega))]
  exact parseHex_hexDigits n

lemma ipv6Groups_map_hexDigits (allowD : Bool) :
    ∀ (gs : List Nat), (∀ g ∈ gs, g < 65536) →
      ipv6Groups allowD (gs.map hexDigits) = some gs := by
  intro gs
  induction gs with
  | nil => intro _; rfl
  | cons g gs ih =>
    intro hb
    rcases gs with - | ⟨g2, gs2⟩
    · show ipv6Groups allowD [hexDigits g] = some [g]
      unfold ipv6Groups
      rw [if_neg]
      · rw [hexGroup_hexDigits (hb g (List.mem_cons_self _ _))]
        rfl
      · rintro ⟨-, hcon⟩
        rw [contains_eq_false_of_not_mem dot_not_mem_hexDigits] at hcon
        cases hcon
    · show ipv6Groups allowD (hexDigits g :: hexDigits g2 :: gs2.map hexDigits) = _
      unfold ipv6Groups
      rw [hexGroup_hexDigits (hb g (List.mem_cons_self _ _))]
      have := ih (fun x hx => hb x (List.mem_cons_of_mem _ hx))
      simp only [List.map_cons] at this
      rw [this]

lemma ipv6Side_join {allowD : Bool} {gs : List Nat} (hne : gs ≠ [])
    (hb : ∀ g ∈ gs, g < 65536) :
    ipv6Side allowD (joinSep ':' (gs.map hexDigits)) = some gs := by
  unfold ipv6Side
  have hjne : joinSep ':' (gs.map hexDigits) ≠ [] :=
    joinSep_ne_nil (by simpa using hne) (by
      intro p hp
      rcases List.mem_map.mp hp with ⟨g, -, rfl⟩
      exact hexDigits_ne_nil g)
  rw [if_neg hjne]
  rw [splitAllCh_joinSep _ (by simpa using hne) (by
    intro p hp
    rcases List.mem_map.mp hp with ⟨g, -, rfl⟩
    exact colon_not_mem_hexDigits)]
  exact ipv6Groups_map_hexDigits allowD gs hb

/-- No two adjacent colons. -/
def NoTwo : List Char → Prop
  | [] => True
  | [_] => True
  | x :: y :: t => (x = ':' → y ≠ ':') ∧ NoTwo (y :: t)

lemma NoTwo_tail {x : Char} {t : List Char} (h : NoTwo (x :: t)) : NoTwo t := by
  rcases t with - | ⟨y, t2⟩
  · trivial
  · exact h.2

lemma NoTwo_colonfree_append {p t : List Char} (hp : ':' ∉ p) (ht : NoTwo t) :
    NoTwo (p ++ t) := by
  induction p with
  | nil => simpa using ht
  | cons x xs ih =>
    have hx : x ≠ ':' := by rintro rfl; exact hp (List.mem_cons_self _ _)
    have hrest : NoTwo (xs ++ t) := ih (fun hm => hp (List.mem_cons_of_mem _ hm))
    show NoTwo (x :: (xs ++ t))
    rcases hxs : xs ++ t with - | ⟨y, t2⟩
    · trivial
    · exact ⟨fun hcol => absurd hcol hx, hxs ▸ hrest⟩

lemma NoTwo_of_colon_free {p : List Char} (hp : ':' ∉ p) : NoTwo p := by
  have := NoTwo_colonfree_append (t := []) hp trivial
  simpa using this

lemma splitOnceSeq_dcolon_none {l : List Char} (h : NoTwo l) :
    splitOnceSeq [':', ':'] l = none := by
  induction l with
  | nil => rfl
  | cons x xs ih =>
    have hpre : ([':', ':'].isPrefixOf (x :: xs)) = false := by
      rcases xs with - | ⟨y, t⟩
      · by_cases hx : x = ':' <;> simp [List.isPrefixOf, hx]
      · by_cases hx : x = ':'
        · subst hx
          have hy : (':' == y) = false :=
            beq_eq_false_iff_ne.mpr (fun hh => (h.1 rfl) hh.symm)
          simp [List.isPrefixOf, hy]
        · have hx2 : (':' == x) = false :=
            beq_eq_false_iff_ne.mpr (fun hh => hx hh.symm)
          simp [List.isPrefixOf, hx2]
    simp only [splitOnceSeq, hpre, Bool.false_eq_true, if_false]
    rw [ih (NoTwo_tail h)]
    rfl

lemma splitOnceSeq_dcolon_append {L R : List Char} (h : NoTwo (L ++ [':'])) :
    splitOnceSeq [':', ':'] (L ++ ':' :: ':' :: R) = some (L, R) := by
  induction L with
  | nil => simp [splitOnceSeq, List.isPrefixOf]
  | cons x xs ih =>
    have hh : NoTwo ((x :: xs) ++ [':']) := h
    have hpre : ([':', ':'].isPrefixOf (x :: (xs ++ ':' :: ':' :: R))) = false := by
      by_cases hx : x = ':'
      · subst hx
        rcases xs with - | ⟨y, t⟩
        · exact absurd rfl (hh.1 rfl)
        · have hy : (':' == y) = false :=
            beq_eq_false_iff_ne.mpr (fun hyy => (hh.1 rfl) hyy.symm)
          simp [List.isPrefixOf, hy]
      · have hx2 : (':' == x) = false :=
          beq_eq_false_iff_ne.mpr (fun hh2 => hx hh2.symm)
        simp [List.isPrefixOf, hx2]
    simp only [List.cons_append, splitOnceSeq, hpre, Bool.false_eq_true, if_false,
      List.append_eq]
    rw [ih (NoTwo_tail hh)]
    rfl

lemma joinSep_cons {c z : Char} {q2 : List Char} {qs : List (List Char)} :
    joinSep c ((z :: q2) :: qs) = z :: joinSep c (q2 :: qs) := by
  rcases qs with - | ⟨q, qs⟩ <;> simp [joinSep]

lemma NoTwo_join {ps : List (List Char)} (hne : ∀ p ∈ ps, p ≠ [])
    (hcol : ∀ p ∈ ps, ':' ∉ p) : NoTwo (joinSep ':' ps ++ [':']) := by
  induction ps with
  | nil => exact trivial
  | cons p ps ih =>
    rcases ps with - | ⟨q, qs⟩
    · show NoTwo (p ++ [':'])
      exact NoTwo_colonfree_append (hcol p (List.mem_cons_self _ _)) trivial
    · show NoTwo ((p ++ ':' :: joinSep ':' (q :: qs)) ++ [':'])
      rw [List.append_assoc]
      refine NoTwo_colonfree_append (hcol p (List.mem_cons_self _ _)) ?_
      show NoTwo (':' :: (joinSep ':' (q :: qs) ++ [':']))
      have hq : q ≠ [] := hne q (List.mem_cons_of_mem _ (List.mem_cons_self _ _))
      rcases q with - | ⟨z, q2⟩
      · exact absurd rfl hq
      · have hz : z ≠ ':' := by
          rintro rfl
          exact hcol (':' :: q2) (List.mem_cons_of_mem _ (List.mem_cons_self _ _))
            (List.mem_cons_self _ _)
        rw [joinSep_cons]
        have hrest : NoTwo (joinSep ':' ((z :: q2) :: qs) ++ [':']) :=
          ih (fun r hr => hne r (List.mem_cons_of_mem _ hr))
            (fun r hr => hcol r (List.mem_cons_of_mem _ hr))
        rw [joinSep_cons] at hrest
        exact ⟨fun _ => hz, hrest⟩

lemma NoTwo_append_left {l l2 : List Char} (h : NoTwo (l ++ l2)) : NoTwo l := by
  induction l with
  | nil => trivial
  | cons x xs ih =>
    rcases xs with - | ⟨y, t⟩
    · trivial
    · have hx : NoTwo ((x :: y :: t) ++ l2) := h
      exact ⟨hx.1, ih hx.2⟩

lemma ipv6Side_join_all {allowD : Bool} {gs : List Nat} (hb : ∀ g ∈ gs, g < 65536) :
    ipv6Side allowD (joinSep ':' (gs.map hexDigits)) = some gs := by
  rcases gs with - | ⟨g, gs⟩
  · rfl
  · exact ipv6Side_join (by simp) hb

lemma map_hexDigits_ne {gs : List Nat} : ∀ p ∈ gs.map hexDigits, p ≠ [] := by
  intro p hp
  rcases List.mem_map.mp hp with ⟨g, -, rfl⟩
  exact hexDigits_ne_nil g

lemma map_hexDigits_nocolon {gs : List Nat} : ∀ p ∈ gs.map hexDigits, ':' ∉ p := by
  intro p hp
  rcases List.mem_map.mp hp with ⟨g, -, rfl⟩
  exact colon_not_mem_hexDigits

lemma ipv6FromStr_full {gs : List Nat} (hlen : gs.length = 8)
    (hb : ∀ g ∈ gs, g < 65536) :
    ipv6FromStr (joinSep ':' (gs.map hexDigits)) = some gs := by
  unfold ipv6FromStr
  have hN : NoTwo (joinSep ':' (gs.map hexDigits)) :=
    NoTwo_append_left (NoTwo_join map_hexDigits_ne map_hexDigits_nocolon)
  rw [splitOnceSeq_dcolon_none hN, ipv6Side_join_all hb]
  simp [hlen]

lemma ipv6FromStr_compressed {pre post : List Nat} {k : Nat} (hk : 2 ≤ k)
    (hlen : pre.length + k + post.length = 8)
    (hbpre : ∀ g ∈ pre, g < 65536) (hbpost : ∀ g ∈ post, g < 65536) :
    ipv6FromStr
        (joinSep ':' (pre.map hexDigits) ++ ':' :: ':' :: joinSep ':' (post.map hexDigits))
      = some (pre ++ List.replicate k 0 ++ post) := by
  unfold ipv6FromStr
  rw [splitOnceSeq_dcolon_append (NoTwo_join map_hexDigits_ne map_hexDigits_nocolon)]
  have hNR : NoTwo (joinSep ':' (post.map hexDigits)) :=
    NoTwo_append_left (NoTwo_join map_hexDigits_ne map_hexDigits_nocolon)
  have hcon : containsSeq [':', ':'] (joinSep ':' (post.map hexDigits)) = false := by
    unfold containsSeq
    rw [splitOnceSeq_dcolon_none hNR]
    rfl
  dsimp only []
  rw [hcon]
  simp only [Bool.false_eq_true, if_false]
  rw [ipv6Side_join_all hbpre, ipv6Side_join_all hbpost]
  dsimp only []
  rw [if_pos (by omega : pre.length + post.length ≤ 7)]
  rw [show 8 - pre.length - post.length = k from by omega]

/-! #### The longest zero run -/

lemma zeroRunLen_nil : zeroRunLen [] = 0 := rfl

lemma zeroRunLen_zero_cons (t : List Nat) : zeroRunLen (0 :: t) = zeroRunLen t + 1 := rfl

lemma zeroRunLen_succ_cons (m : Nat) (t : List Nat) : zeroRunLen ((m + 1) :: t) = 0 := rfl

lemma zeroRunLen_le (l : List Nat) : zeroRunLen l ≤ l.length := by
  induction l with
  | nil => simp [zeroRunLen_nil]
  | cons x t ih =>
    rcases x with - | m
    · rw [zeroRunLen_zero_cons]
      simp only [List.length_cons]
      omega
    · rw [zeroRunLen_succ_cons]
      omega

lemma zeroRun_take {k : Nat} : ∀ {l : List Nat}, k ≤ zeroRunLen l →
    l.take k = List.replicate k 0 := by
  induction k with
  | zero => intro l _; simp
  | succ k2 ih =>
    intro l hk
    rcases l with - | ⟨x, t⟩
    · rw [zeroRunLen_nil] at hk
      omega
    · rcases x with - | m
      · rw [zeroRunLen_zero_cons] at hk
        simp only [List.take_succ_cons, List.replicate_succ]
        exact congrArg (0 :: ·) (ih (by omega))
      · rw [zeroRunLen_succ_cons] at hk
        omega

lemma longestZeroRun_spec (gs : List Nat) :
    (longestZeroRun gs).2 = 0 ∨
      (longestZeroRun gs).2 = zeroRunLen (gs.drop (longestZeroRun gs).1) := by
  unfold longestZeroRun
  generalize List.range gs.length = idxs
  have aux : ∀ (idxs2 : List Nat) (best : Nat × Nat),
      (best.2 = 0 ∨ best.2 = zeroRunLen (gs.drop best.1)) →
      (((idxs2.foldl
          (fun best i =>
            let k := zeroRunLen (gs.drop i)
            if best.2 < k then (i, k) else best)
          best).2 = 0 ∨
        (idxs2.foldl
          (fun best i =>
            let k := zeroRunLen (gs.drop i)
            if best.2 < k then (i, k) else best)
          best).2 =
          zeroRunLen (gs.drop (idxs2.foldl
            (fun best i =>
              let k := zeroRunLen (gs.drop i)
              if best.2 < k then (i, k) else best)
            best).1))) := by
    intro idxs2
    induction idxs2 with
    | nil => intro best hP; exact hP
    | cons i rest ih =>
      intro best hP
      simp only [List.foldl_cons]
      apply ih
      dsimp only []
      split
      · exact Or.inr rfl
      · exact hP
  exact aux idxs (0, 0) (Or.inl rfl)

lemma contains_eq_true_of_mem {c : Char} {l : List Char} (h : c ∈ l) :
    l.contains c = true := by
  induction l with
  | nil => cases h
  | cons x xs ih =>
    rcases List.mem_cons.mp h with rfl | h2
    · simp [List.contains_cons]
    · simp only [List.contains_cons, ih h2, Bool.or_true]

lemma colon_not_mem_ipv4Str {a b c d : Nat} : ':' ∉ ipv4Str a b c d := by
  intro hm
  rcases ipv4Str_chars hm with hdig | hdot
  · exact (isDigitCh_props hdig).2.2.2.1 rfl
  · cases hdot

lemma dot_mem_ipv4Str {a b c d : Nat} : '.' ∈ ipv4Str a b c d := by
  unfold ipv4Str
  exact List.mem_append_right _ (List.mem_cons_self _ _)

lemma ipv4Str_ne_nil {a b c d : Nat} : ipv4Str a b c d ≠ [] := by
  unfold ipv4Str
  rcases hx : decDigits a with - | ⟨y, ys⟩
  · exact absurd hx (decDigits_ne_nil _)
  · simp

lemma ipv6Groups_dotted {g h : Nat} (hg : g < 65536) (hh : h < 65536) :
    ipv6Groups true [ipv4Str (g / 256) (g % 256) (h / 256) (h % 256)] = some [g, h] := by
  unfold ipv6Groups
  rw [if_pos ⟨rfl, contains_eq_true_of_mem dot_mem_ipv4Str⟩]
  rw [ipv4FromStr_ipv4Str (by omega) (by omega) (by omega) (by omega)]
  dsimp only []
  rw [show g / 256 * 256 + g % 256 = g from by omega,
    show h / 256 * 256 + h % 256 = h from by omega]

lemma ipv6Side_dotted {g h : Nat} (hg : g < 65536) (hh : h < 65536) :
    ipv6Side true (ipv4Str (g / 256) (g % 256) (h / 256) (h % 256)) = some [g, h] := by
  unfold ipv6Side
  rw [if_neg ipv4Str_ne_nil, splitAllCh_of_not_mem colon_not_mem_ipv4Str]
  exact ipv6Groups_dotted hg hh

lemma ipv6FromStr_v4compat {g h : Nat} (hg : g < 65536) (hh : h < 65536) :
    ipv6FromStr (str "::" ++ ipv4Str (g / 256) (g % 256) (h / 256) (h % 256))
      = some [0, 0, 0, 0, 0, 0, g, h] := by
  unfold ipv6FromStr
  have hsp := splitOnceSeq_dcolon_append (L := [])
    (R := ipv4Str (g / 256) (g % 256) (h / 256) (h % 256)) trivial
  simp only [List.nil_append] at hsp
  have heq : str "::" ++ ipv4Str (g / 256) (g % 256) (h / 256) (h % 256)
      = ':' :: ':' :: ipv4Str (g / 256) (g % 256) (h / 256) (h % 256) := rfl
  rw [heq, hsp]
  have hcon : containsSeq [':', ':'] (ipv4Str (g / 256) (g % 256) (h / 256) (h % 256))
      = false := by
    unfold containsSeq
    rw [splitOnceSeq_dcolon_none (NoTwo_of_colon_free colon_not_mem_ipv4Str)]
    rfl
  dsimp only []
  rw [hcon]
  simp only [Bool.false_eq_true, if_false]
  rw [show ipv6Side false [] = some [] from rfl, ipv6Side_dotted hg hh]
  dsimp only []
  rw [if_pos (by norm_num)]
  rfl

lemma NoTwo_colon_cons {D : List Char} (hD : ':' ∉ D) : NoTwo (':' :: D) := by
  rcases D with - | ⟨y, D2⟩
  · trivial
  · have hy : y ≠ ':' := by rintro rfl; exact hD (List.mem_cons_self _ _)
    exact ⟨fun _ => hy, NoTwo_of_colon_free hD⟩

lemma ipv6FromStr_v4mapped {g h : Nat} (hg : g < 65536) (hh : h < 65536) :
    ipv6FromStr (str "::ffff:" ++ ipv4Str (g / 256) (g % 256) (h / 256) (h % 256))
      = some [0, 0, 0, 0, 0, 65535, g, h] := by
  unfold ipv6FromStr
  have hcl : ':' ∉ str "ffff" := by decide
  have hsp := splitOnceSeq_dcolon_append (L := [])
    (R := str "ffff" ++ ':' :: ipv4Str (g / 256) (g % 256) (h / 256) (h % 256)) trivial
  simp only [List.nil_append] at hsp
  have heq : str "::ffff:" ++ ipv4Str (g / 256) (g % 256) (h / 256) (h % 256)
      = ':' :: ':' :: (str "ffff" ++ ':' :: ipv4Str (g / 256) (g % 256) (h / 256) (h % 256)) :=
    rfl
  rw [heq, hsp]
  have hNR : NoTwo (str "ffff" ++ ':' :: ipv4Str (g / 256) (g % 256) (h / 256) (h % 256)) :=
    NoTwo_colonfree_append hcl (NoTwo_colon_cons colon_not_mem_ipv4Str)
  have hcon : containsSeq [':', ':']
      (str "ffff" ++ ':' :: ipv4Str (g / 256) (g % 256) (h / 256) (h % 256)) = false := by
    unfold containsSeq
    rw [splitOnceSeq_dcolon_none hNR]
    rfl
  dsimp only []
  rw [hcon]
  simp only [Bool.false_eq_true, if_false]
  have hRne : str "ffff" ++ ':' :: ipv4Str (g / 256) (g % 256) (h / 256) (h % 256) ≠ [] := by
    show 'f' :: (str "fff" ++ ':' :: ipv4Str (g / 256) (g % 256) (h / 256) (h % 256)) ≠ []
    simp
  have hside : ipv6Side true
      (str "ffff" ++ ':' :: ipv4Str (g / 256) (g % 256) (h / 256) (h % 256))
      = some [65535, g, h] := by
    unfold ipv6Side
    rw [if_neg hRne, splitAllCh_append _ hcl,
      splitAllCh_of_not_mem colon_not_mem_ipv4Str]
    unfold ipv6Groups
    rw [show hexGroup (str "ffff") = some 65535 from by decide]
    rw [ipv6Groups_dotted hg hh]
  rw [show ipv6Side false [] = some [] from rfl, hside]
  dsimp only []
  rw [if_pos (by norm_num)]
  rfl

lemma ipv6FromStr_ipv6Str {gs : List Nat} (hlen : gs.length = 8)
    (hb : ∀ g ∈ gs, g < 65536) : ipv6FromStr (ipv6Str gs) = some gs := by
  rcases gs with - | ⟨a0, gs⟩; · simp at hlen
  rcases gs with - | ⟨a1, gs⟩; · simp at hlen
  rcases gs with - | ⟨a2, gs⟩; · simp at hlen
  rcases gs with - | ⟨a3, gs⟩; · simp at hlen
  rcases gs with - | ⟨a4, gs⟩; · simp at hlen
  rcases gs with - | ⟨a5, gs⟩; · simp at hlen
  rcases gs with - | ⟨a6, gs⟩; · simp at hlen
  rcases gs with - | ⟨a7, gs⟩; · simp at hlen
  rcases gs with - | ⟨a8, gs⟩
  swap
  · simp at hlen
  unfold ipv6Str
  by_cases h1 : [a0, a1, a2, a3, a4, a5, a6, a7] = [0, 0, 0, 0, 0, 0, 0, 0]
  · rw [if_pos h1, h1]
    decide
  rw [if_neg h1]
  by_cases h2 : [a0, a1, a2, a3, a4, a5, a6, a7] = [0, 0, 0, 0, 0, 0, 0, 1]
  · rw [if_pos h2, h2]
    decide
  rw [if_neg h2]
  by_cases h3 : [a0, a1, a2, a3, a4, a5, a6, a7].take 6 = [0, 0, 0, 0, 0, 0]
  · rw [if_pos h3]
    have h3b : [a0, a1, a2, a3, a4, a5] = [0, 0, 0, 0, 0, 0] := h3
    obtain ⟨rfl, rfl, rfl, rfl, rfl, rfl⟩ :
        a0 = 0 ∧ a1 = 0 ∧ a2 = 0 ∧ a3 = 0 ∧ a4 = 0 ∧ a5 = 0 := by
      simpa using h3b
    have hg : a6 < 65536 := hb a6 (by simp)
    have hh : a7 < 65536 := hb a7 (by simp)
    exact ipv6FromStr_v4compat hg hh
  rw [if_neg h3]
  by_cases h4 : [a0, a1, a2, a3, a4, a5, a6, a7].take 6 = [0, 0, 0, 0, 0, 65535]
  · rw [if_pos h4]
    have h4b : [a0, a1, a2, a3, a4, a5] = [0, 0, 0, 0, 0, 65535] := h4
    obtain ⟨rfl, rfl, rfl, rfl, rfl, rfl⟩ :
        a0 = 0 ∧ a1 = 0 ∧ a2 = 0 ∧ a3 = 0 ∧ a4 = 0 ∧ a5 = 65535 := by
      simpa using h4b
    have hg : a6 < 65536 := hb a6 (by simp)
    have hh : a7 < 65536 := hb a7 (by simp)
    exact ipv6FromStr_v4mapped hg hh
  rw [if_neg h4]
  dsimp only []
  rcases hr : longestZeroRun [a0, a1, a2, a3, a4, a5, a6, a7] with ⟨i, k⟩
  have hspec := longestZeroRun_spec [a0, a1, a2, a3, a4, a5, a6, a7]
  rw [hr] at hspec
  dsimp only [] at hspec
  by_cases hk : 2 ≤ k
  · rw [if_pos hk]
    rcases hspec with h0 | hrun
    · omega
    have hL8 : ([a0, a1, a2, a3, a4, a5, a6, a7] : List Nat).length = 8 := rfl
    have hkle : k ≤ ([a0, a1, a2, a3, a4, a5, a6, a7].drop i).length := by
      rw [hrun]; exact zeroRunLen_le _
    have hdlen : ([a0, a1, a2, a3, a4, a5, a6, a7].drop i).length = 8 - i := by
      rw [List.length_drop, hL8]
    have hile : i + k ≤ 8 := by omega
    have htake := zeroRun_take (le_of_eq hrun)
    have hdrop : [a0, a1, a2, a3, a4, a5, a6, a7].drop i
        = List.replicate k 0 ++ [a0, a1, a2, a3, a4, a5, a6, a7].drop (i + k) := by
      conv_lhs => rw [← List.take_append_drop k ([a0, a1, a2, a3, a4, a5, a6, a7].drop i)]
      rw [htake, List.drop_drop]
    have hrecon : ([a0, a1, a2, a3, a4, a5, a6, a7] : List Nat)
        = [a0, a1, a2, a3, a4, a5, a6, a7].take i ++ List.replicate k 0 ++
          [a0, a1, a2, a3, a4, a5, a6, a7].drop (i + k) := by
      conv_lhs => rw [← List.take_append_drop i [a0, a1, a2, a3, a4, a5, a6, a7], hdrop]
      rw [List.append_assoc]
    have hlens : ([a0, a1, a2, a3, a4, a5, a6, a7].take i).length + k +
        ([a0, a1, a2, a3, a4, a5, a6, a7].drop (i + k)).length = 8 := by
      rw [List.length_take, List.length_drop, hL8]
      omega
    rw [ipv6FromStr_compressed hk hlens
      (fun g hg => hb g (List.take_subset _ _ hg))
      (fun g hg => hb g (List.drop_subset _ _ hg))]
    exact congrArg some hrecon.symm
  · rw [if_neg hk]
    exact ipv6FromStr_full rfl hb

/-! ### Characters of printed addresses -/

lemma isHexCh_of_isDigitCh {c : Char} (h : isDigitCh c = true) : isHexCh c = true := by
  unfold isDigitCh at h
  rcases ho : digitVal c with - | d
  · rw [ho] at h; simp at h
  · rcases digitVal_cases ho with rfl | rfl | rfl | rfl | rfl | rfl | rfl | rfl | rfl | rfl <;>
      decide

lemma ipv6Str_chars {gs : List Nat} {x : Char} (hx : x ∈ ipv6Str gs) :
    isHexCh x = true ∨ x = ':' ∨ x = '.' := by
  have hjoin : ∀ (l : List Nat), x ∈ joinSep ':' (l.map hexDigits) →
      isHexCh x = true ∨ x = ':' ∨ x = '.' := by
    intro l hm
    rcases joinSep_chars hm with h2 | ⟨p, hp, hxp⟩
    · exact Or.inr (Or.inl h2)
    · rcases List.mem_map.mp hp with ⟨g, -, rfl⟩
      exact Or.inl (hexDigits_all_hex g x hxp)
  have hv4 : ∀ (a b c d : Nat), x ∈ ipv4Str a b c d →
      isHexCh x = true ∨ x = ':' ∨ x = '.' := by
    intro a b c d hm
    rcases ipv4Str_chars hm with h2 | h2
    · exact Or.inl (isHexCh_of_isDigitCh h2)
    · exact Or.inr (Or.inr h2)
  unfold ipv6Str at hx
  split at hx
  · have h2 : x ∈ [':', ':'] := hx
    simp only [List.mem_cons, List.not_mem_nil, or_false] at h2
    rcases h2 with rfl | rfl <;> exact Or.inr (Or.inl rfl)
  · split at hx
    · have h2 : x ∈ [':', ':', '1'] := hx
      simp only [List.mem_cons, List.not_mem_nil, or_false] at h2
      rcases h2 with rfl | rfl | rfl
      · exact Or.inr (Or.inl rfl)
      · exact Or.inr (Or.inl rfl)
      · exact Or.inl (by decide)
    · split at hx
      · dsimp only [] at hx
        rcases List.mem_append.mp hx with h | h
        · have h2 : x ∈ [':', ':'] := h
          simp only [List.mem_cons, List.not_mem_nil, or_false] at h2
          rcases h2 with rfl | rfl <;> exact Or.inr (Or.inl rfl)
        · exact hv4 _ _ _ _ h
      · split at hx
        · dsimp only [] at hx
          rcases List.mem_append.mp hx with h | h
          · have h2 : x ∈ [':', ':', 'f', 'f', 'f', 'f', ':'] := h
            simp only [List.mem_cons, List.not_mem_nil, or_false] at h2
            rcases h2 with rfl | rfl | rfl | rfl | rfl | rfl | rfl
            · exact Or.inr (Or.inl rfl)
            · exact Or.inr (Or.inl rfl)
            · exact Or.inl (by decide)
            · exact Or.inl (by decide)
            · exact Or.inl (by decide)
            · exact Or.inl (by decide)
            · exact Or.inr (Or.inl rfl)
          · exact hv4 _ _ _ _ h
        · dsimp only [] at hx
          split at hx
          · rcases List.mem_append.mp hx with h | h
            · exact hjoin _ h
            · rcases List.mem_cons.mp h with rfl | h2
              · exact Or.inr (Or.inl rfl)
              · rcases List.mem_cons.mp h2 with rfl | h3
                · exact Or.inr (Or.inl rfl)
                · exact hjoin _ h3
          · exact hjoin _ hx

lemma ipv6Str_char_props {gs : List Nat} {x : Char} (hx : x ∈ ipv6Str gs) :
    isAuthorityEnd x = false ∧ x ≠ '@' ∧ x ≠ ']' ∧ x ≠ '[' := by
  rcases ipv6Str_chars hx with h | h | h
  · have := isHexCh_props h
    refine ⟨this.1, this.2.2.2.2.2, this.2.2.2.2.1, this.2.2.2.1⟩
  · subst h; exact ⟨by decide, by decide, by decide, by decide⟩
  · subst h; exact ⟨by decide, by decide, by decide, by decide⟩

/-! ### `parse_local_bind` on a formatted socket address -/

lemma isAuthorityEnd_false_props {c : Char} (h : isAuthorityEnd c = false) :
    c ≠ '/' ∧ c ≠ '?' ∧ c ≠ '#' := by
  unfold isAuthorityEnd at h
  simp only [Bool.or_eq_false_iff, decide_eq_false_iff_not] at h
  exact ⟨h.1.1, h.1.2, h.2⟩

lemma digit_notin_colon_qmark {x : Char} (h : isDigitCh x = true) : x ∉ [':', '?'] := by
  have hp := isDigitCh_props h
  have hq := isAuthorityEnd_false_props hp.2.2.1
  simp only [List.mem_cons, List.not_mem_nil, or_false]
  rintro (rfl | rfl)
  · exact hp.2.2.2.1 rfl
  · exact hq.2.1 rfl


lemma portTail (bindIp : IpAddr) {port : Nat} (R : List Char) (hport : port ≤ 65535) :
    (let remaining := List.dropWhile (fun x => decide (x = ':')) (decDigits port ++ ':' :: R);
     match (splitOnceAny [':', '?'] remaining).getD (remaining, []) with
     | (port_str, remaining) =>
       match parseRustUInt 65535 port_str with
       | none => (Except.error "cannot parse bind port" : Except String (SockAddr × List Char))
       | some bind_port => Except.ok (⟨bindIp, bind_port⟩, remaining))
      = Except.ok (⟨bindIp, port⟩, R) := by
  obtain ⟨z, zs, hz⟩ := List.exists_cons_of_ne_nil (decDigits_ne_nil port)
  have hzdig : isDigitCh z = true := decDigits_all_digits port z (by rw [hz]; exact List.mem_cons_self _ _)
  have hdw : List.dropWhile (fun x => decide (x = ':')) (decDigits port ++ ':' :: R)
      = decDigits port ++ ':' :: R := by
    rw [hz]
    simp only [List.cons_append, List.dropWhile_cons]
    rw [if_neg (by simp [(isDigitCh_props hzdig).2.2.2.1])]
  have hsp : splitOnceAny [':', '?'] (decDigits port ++ ':' :: R)
      = some (decDigits port, R) :=
    splitOnceAny_append R (fun x hx => digit_notin_colon_qmark (decDigits_all_digits port x hx))
      (by simp)
  simp only [hdw, hsp, Option.getD_some]
  rw [parseRustUInt_decDigits hport]

lemma parseLocalBind_sockAddr {sa : SockAddr} (R : List Char) (hv : ValidAddr sa) :
    parseLocalBind (sockAddrStr sa ++ ':' :: R) = .ok (sa, R) := by
  obtain ⟨ip, port⟩ := sa
  obtain ⟨hip, hport⟩ := hv
  rcases ip with ⟨a, b, c, d⟩ | ⟨gs⟩
  · obtain ⟨ha, hb2, hc2, hd2⟩ := hip
    have harg : sockAddrStr ⟨.v4 a b c d, port⟩ ++ ':' :: R
        = ipv4Str a b c d ++ ':' :: (decDigits port ++ ':' :: R) := by
      simp [sockAddrStr, List.append_assoc]
    rw [harg]
    obtain ⟨z, zs, hz⟩ := List.exists_cons_of_ne_nil (decDigits_ne_nil a)
    have hzdig : isDigitCh z = true :=
      decDigits_all_digits a z (by rw [hz]; exact List.mem_cons_self _ _)
    have hstr : ipv4Str a b c d
        = z :: (zs ++ '.' :: decDigits b ++ '.' :: decDigits c ++ '.' :: decDigits d) := by
      unfold ipv4Str
      rw [hz]
      simp
    have hhead : (ipv4Str a b c d ++ ':' :: (decDigits port ++ ':' :: R)).head? = some z := by
      rw [hstr]
      rfl
    conv_lhs => unfold parseLocalBind
    rw [hhead]
    rw [if_neg (by simp [(isDigitCh_props hzdig).2.2.2.2.2.2.1])]
    rw [splitOnceCh_append (decDigits port ++ ':' :: R) colon_not_mem_ipv4Str]
    dsimp only [Option.getD_some]
    rw [ipv4FromStr_ipv4Str ha hb2 hc2 hd2]
    exact portTail (IpAddr.v4 a b c d) R hport
  · obtain ⟨hlen, hbound⟩ := hip
    have harg : sockAddrStr ⟨.v6 gs, port⟩ ++ ':' :: R
        = '[' :: (ipv6Str gs ++ ']' :: (':' :: (decDigits port ++ ':' :: R))) := by
      simp [sockAddrStr, List.append_assoc]
    rw [harg]
    conv_lhs => unfold parseLocalBind
    rw [if_pos (by rfl)]
    have hnomem : ']' ∉ '[' :: ipv6Str gs := by
      intro hm
      rcases List.mem_cons.mp hm with h2 | h2
      · cases h2
      · exact (ipv6Str_char_props h2).2.2.1 rfl
    have hsp : splitOnceCh ']' ('[' :: (ipv6Str gs ++ ']' :: (':' :: (decDigits port ++ ':' :: R))))
        = some ('[' :: ipv6Str gs, ':' :: (decDigits port ++ ':' :: R)) := by
      have := @splitOnceCh_append ']' ('[' :: ipv6Str gs)
        (':' :: (decDigits port ++ ':' :: R)) hnomem
      simpa using this
    rw [hsp]
    dsimp only [List.drop]
    rw [ipv6FromStr_ipv6Str hlen hbound]
    exact portTail (IpAddr.v6 gs) R hport

/-! ### `parse_tunnel_dest` on a formatted host and port -/

lemma map_self {f : Char → Char} {l : List Char} (h : ∀ c ∈ l, f c = c) : l.map f = l := by
  induction l with
  | nil => rfl
  | cons x xs ih =>
    rw [List.map_cons, h x (List.mem_cons_self _ _),
      ih (fun c hc => h c (List.mem_cons_of_mem _ hc))]

lemma forbidden_false_props {c : Char} (h : isForbiddenHostCh c = false) :
    isAuthorityEnd c = false ∧ c ≠ '@' ∧ c ≠ '[' ∧ c ≠ ']' ∧ c ≠ ':' := by
  have h1 : c ≠ '/' := by rintro rfl; exact absurd h (by decide)
  have h2 : c ≠ '?' := by rintro rfl; exact absurd h (by decide)
  have h3 : c ≠ '#' := by rintro rfl; exact absurd h (by decide)
  refine ⟨?_, ?_, ?_, ?_, ?_⟩
  · simp [isAuthorityEnd, h1, h2, h3]
  · rintro rfl; exact absurd h (by decide)
  · rintro rfl; exact absurd h (by decide)
  · rintro rfl; exact absurd h (by decide)
  · rintro rfl; exact absurd h (by decide)

lemma urlPort_decDigits {p : Nat} (hp : p ≤ 65535) :
    urlPort (decDigits p) = .ok (if p = 443 then none else some p) := by
  unfold urlPort
  rw [if_neg (decDigits_ne_nil p), parseDec_decDigits]
  dsimp only []
  rw [if_pos hp]

lemma parseHostText_domain {d : List Char} (hne : d ≠ [])
    (hforb : ∀ c ∈ d, isForbiddenHostCh c = false) (hlow : ∀ c ∈ d, lowerCh c = c)
    (hnum : endsInNumber d = false) : parseHostText d = .ok (.domain d) := by
  unfold parseHostText
  rw [if_neg hne, map_self hlow]
  rw [if_neg (by
    intro hx
    rcases List.any_eq_true.mp hx with ⟨c, hc, hcf⟩
    rw [hforb c hc] at hcf
    cases hcf)]
  rw [hnum]
  rfl

lemma ipv4Str_lower {a b c d : Nat} : (ipv4Str a b c d).map lowerCh = ipv4Str a b c d := by
  apply map_self
  intro x hx
  rcases ipv4Str_chars hx with h2 | h2
  · exact (isDigitCh_props h2).1
  · subst h2; decide

lemma ipv4Str_forbidden {a b c d : Nat} :
    ∀ x ∈ ipv4Str a b c d, isForbiddenHostCh x = false := by
  intro x hx
  rcases ipv4Str_chars hx with h2 | h2
  · exact (isDigitCh_props h2).2.1
  · subst h2; decide

lemma parseHostText_ipv4 {a b c d : Nat}
    (ha : a ≤ 255) (hb : b ≤ 255) (hc : c ≤ 255) (hd : d ≤ 255) :
    parseHostText (ipv4Str a b c d) = .ok (.ipv4 a b c d) := by
  unfold parseHostText
  rw [if_neg ipv4Str_ne_nil, ipv4Str_lower]
  rw [if_neg (by
    intro hx
    rcases List.any_eq_true.mp hx with ⟨x, hxm, hxf⟩
    rw [ipv4Str_forbidden x hxm] at hxf
    cases hxf)]
  rw [endsInNumber_ipv4Str, if_pos rfl, whatwgIpv4_ipv4Str ha hb hc hd]

lemma uHostStr_authEnd {h : UHost} (hv : ValidHost h) :
    ∀ c ∈ uHostStr h, isAuthorityEnd c = false ∧ c ≠ '@' := by
  intro c hc
  match h, hv with
  | .domain d, ⟨hne, hforb, hlow, hnum⟩ =>
    have := forbidden_false_props (hforb c hc)
    exact ⟨this.1, this.2.1⟩
  | .ipv4 a b c2 d, hv =>
    rcases ipv4Str_chars hc with h2 | h2
    · have := isDigitCh_props h2
      exact ⟨this.2.2.1, this.2.2.2.2.2.2.2.2.1⟩
    · subst h2; exact ⟨by decide, by decide⟩
  | .ipv6 gs, hv =>
    have hc2 : c ∈ '[' :: (ipv6Str gs ++ [']']) := hc
    rcases List.mem_cons.mp hc2 with rfl | h3
    · exact ⟨by decide, by decide⟩
    · rcases List.mem_append.mp h3 with h4 | h4
      · have := ipv6Str_char_props h4
        exact ⟨this.1, this.2.1⟩
      · rcases List.mem_singleton.mp h4 with rfl
        exact ⟨by decide, by decide⟩

lemma hostPort_no_at {h : UHost} {p : Nat} (hv : ValidHost h) :
    '@' ∉ uHostStr h ++ ':' :: decDigits p := by
  intro hm
  rcases List.mem_append.mp hm with h2 | h2
  · exact (uHostStr_authEnd hv '@' h2).2 rfl
  · rcases List.mem_cons.mp h2 with h3 | h3
    · cases h3
    · exact (isDigitCh_props (decDigits_all_digits p _ h3)).2.2.2.2.2.2.2.2.1 rfl

lemma dropUserinfo_id {l : List Char} (h : '@' ∉ l) : dropUserinfo l = l := by
  unfold dropUserinfo
  rw [splitOnceCh_none (by simpa using h)]

lemma parseAuthority_roundtrip {h : UHost} {p : Nat} (hv : ValidHost h) (hp : p ≤ 65535) :
    parseAuthority (uHostStr h ++ ':' :: decDigits p)
      = .ok (h, if p = 443 then none else some p) := by
  have hno := hostPort_no_at (p := p) hv
  match h, hv with
  | .domain d, ⟨hne, hforb, hlow, hnum⟩ =>
    obtain ⟨z, zs, hz⟩ := List.exists_cons_of_ne_nil hne
    unfold parseAuthority
    rw [dropUserinfo_id hno]
    dsimp only []
    have hhead : (uHostStr (.domain d) ++ ':' :: decDigits p).head? = some z := by
      show (d ++ ':' :: decDigits p).head? = some z
      rw [hz]; rfl
    rw [hhead]
    have hzb : z ≠ '[' :=
      (forbidden_false_props (hforb z (by rw [hz]; exact List.mem_cons_self _ _))).2.2.1
    rw [if_neg (by simp [hzb])]
    have hcolon : ':' ∉ d := fun hm => (forbidden_false_props (hforb _ hm)).2.2.2.2 rfl
    rw [show (uHostStr (.domain d) ++ ':' :: decDigits p) = d ++ ':' :: decDigits p from rfl]
    rw [splitOnceCh_append (decDigits p) hcolon]
    dsimp only []
    rw [parseHostText_domain hne hforb hlow hnum, urlPort_decDigits hp]
    rfl
  | .ipv4 a b c2 d2, ⟨ha, hb2, hc2, hd2⟩ =>
    obtain ⟨z, zs, hz⟩ := List.exists_cons_of_ne_nil (decDigits_ne_nil a)
    unfold parseAuthority
    rw [dropUserinfo_id hno]
    dsimp only []
    have hstr : ipv4Str a b c2 d2
        = z :: (zs ++ '.' :: decDigits b ++ '.' :: decDigits c2 ++ '.' :: decDigits d2) := by
      unfold ipv4Str
      rw [hz]
      simp
    have hhead : (uHostStr (.ipv4 a b c2 d2) ++ ':' :: decDigits p).head? = some z := by
      show (ipv4Str a b c2 d2 ++ ':' :: decDigits p).head? = some z
      rw [hstr]; rfl
    rw [hhead]
    have hzdig : isDigitCh z = true :=
      decDigits_all_digits a z (by rw [hz]; exact List.mem_cons_self _ _)
    rw [if_neg (by simp [(isDigitCh_props hzdig).2.2.2.2.2.2.1])]
    rw [show (uHostStr (.ipv4 a b c2 d2) ++ ':' :: decDigits p)
        = ipv4Str a b c2 d2 ++ ':' :: decDigits p from rfl]
    rw [splitOnceCh_append (decDigits p) colon_not_mem_ipv4Str]
    dsimp only []
    rw [parseHostText_ipv4 ha hb2 hc2 hd2, urlPort_decDigits hp]
    rfl
  | .ipv6 gs, ⟨hlen, hbound⟩ =>
    unfold parseAuthority
    rw [dropUserinfo_id hno]
    dsimp only []
    have harg : uHostStr (.ipv6 gs) ++ ':' :: decDigits p
        = '[' :: (ipv6Str gs ++ ']' :: ':' :: decDigits p) := by
      show ('[' :: (ipv6Str gs ++ [']'])) ++ ':' :: decDigits p = _
      simp
    rw [harg]
    rw [if_pos (show ((('[' : Char) :: (ipv6Str gs ++ ']' :: ':' :: decDigits p)).head?
      = some '[') from rfl)]
    have hnomem : ']' ∉ '[' :: ipv6Str gs := by
      intro hm
      rcases List.mem_cons.mp hm with h2 | h2
      · cases h2
      · exact (ipv6Str_char_props h2).2.2.1 rfl
    have hsp : splitOnceCh ']' ('[' :: (ipv6Str gs ++ ']' :: ':' :: decDigits p))
        = some ('[' :: ipv6Str gs, ':' :: decDigits p) := by
      have := @splitOnceCh_append ']' ('[' :: ipv6Str gs) (':' :: decDigits p) hnomem
      simpa using this
    rw [hsp]
    dsimp only [List.drop]
    rw [ipv6FromStr_ipv6Str hlen hbound]
    dsimp only []
    split
    · rename_i heq; cases heq
    · rename_i ptext heq
      obtain rfl : ptext = decDigits p := (List.cons_eq_cons.mp heq).2.symm
      rw [urlPort_decDigits hp]
      rfl
    · rename_i hx h1 h2
      exact absurd rfl (h2 (decDigits p))

lemma hostPort_span {h : UHost} {p : Nat} (hv : ValidHost h) :
    ∀ c ∈ uHostStr h ++ ':' :: decDigits p, (!isAuthorityEnd c) = true := by
  intro c hc
  rcases List.mem_append.mp hc with h2 | h2
  · rw [(uHostStr_authEnd hv c h2).1]; rfl
  · rcases List.mem_cons.mp h2 with rfl | h3
    · rfl
    · rw [(isDigitCh_props (decDigits_all_digits p _ h3)).2.2.1]; rfl

lemma urlParse_hostPort {h : UHost} {p : Nat} (hv : ValidHost h) (hp : p ≤ 65535) :
    urlParse (uHostStr h ++ ':' :: decDigits p)
      = .ok (h, (if p = 443 then none else some p), []) := by
  unfold urlParse
  rw [spanList_all (hostPort_span hv)]
  dsimp only []
  rw [parseAuthority_roundtrip hv hp]
  rfl

lemma parseTunnelDest_hostPort {h : UHost} {p : Nat} (hv : ValidHost h) (hp : p ≤ 65535) :
    parseTunnelDest (uHostStr h ++ ':' :: decDigits p) = .ok (h, p, []) := by
  unfold parseTunnelDest
  rw [urlParse_hostPort hv hp]
  by_cases h443 : p = 443
  · subst h443
    rw [if_pos rfl]
    dsimp only []
    have hd443 : (':' :: decDigits 443) = str ":443" := by
      have : decDigits 443 = str "443" := by
        rw [decDigits]
        norm_num
        rw [decDigits]
        norm_num
        rw [decDigits]
        norm_num
        decide
      rw [this]
      rfl
    have hsfx : endsWithSeq (str ":443") (uHostStr h ++ ':' :: decDigits 443) = true := by
      unfold endsWithSeq
      rw [decide_eq_true_eq, hd443]
      exact List.suffix_append _ _
    rw [hsfx]
    rfl
  · rw [if_neg h443]
    rfl

/-! ### Per-scheme characterizations of `parse_tunnel_arg` -/

lemma split_scheme_tcp (s : List Char) :
    splitOnceSeq (str "://") (str "tcp://" ++ s) = some (str "tcp", s) := by
  show splitOnceSeq [':', '/', '/'] ('t' :: 'c' :: 'p' :: ':' :: '/' :: '/' :: s)
      = some (['t', 'c', 'p'], s)
  simp [splitOnceSeq, List.isPrefixOf]

lemma split_scheme_udp (s : List Char) :
    splitOnceSeq (str "://") (str "udp://" ++ s) = some (str "udp", s) := by
  show splitOnceSeq [':', '/', '/'] ('u' :: 'd' :: 'p' :: ':' :: '/' :: '/' :: s)
      = some (['u', 'd', 'p'], s)
  simp [splitOnceSeq, List.isPrefixOf]

lemma split_scheme_unix (s : List Char) :
    splitOnceSeq (str "://") (str "unix://" ++ s) = some (str "unix", s) := by
  show splitOnceSeq [':', '/', '/'] ('u' :: 'n' :: 'i' :: 'x' :: ':' :: '/' :: '/' :: s)
      = some (['u', 'n', 'i', 'x'], s)
  simp [splitOnceSeq, List.isPrefixOf]

lemma split_scheme_http (s : List Char) :
    splitOnceSeq (str "://") (str "http://" ++ s) = some (str "http", s) := by
  show splitOnceSeq [':', '/', '/'] ('h' :: 't' :: 't' :: 'p' :: ':' :: '/' :: '/' :: s)
      = some (['h', 't', 't', 'p'], s)
  simp [splitOnceSeq, List.isPrefixOf]

lemma split_scheme_socks5 (s : List Char) :
    splitOnceSeq (str "://") (str "socks5://" ++ s) = some (str "socks5", s) := by
  show splitOnceSeq [':', '/', '/'] ('s' :: 'o' :: 'c' :: 'k' :: 's' :: '5' :: ':' :: '/' :: '/' :: s)
      = some (['s', 'o', 'c', 'k', 's', '5'], s)
  simp [splitOnceSeq, List.isPrefixOf]

lemma split_scheme_stdio (s : List Char) :
    splitOnceSeq (str "://") (str "stdio://" ++ s) = some (str "stdio", s) := by
  show splitOnceSeq [':', '/', '/'] ('s' :: 't' :: 'd' :: 'i' :: 'o' :: ':' :: '/' :: '/' :: s)
      = some (['s', 't', 'd', 'i', 'o'], s)
  simp [splitOnceSeq, List.isPrefixOf]

lemma split_scheme_tproxyTcp (s : List Char) :
    splitOnceSeq (str "://") (str "tproxy+tcp://" ++ s) = some (str "tproxy+tcp", s) := by
  show splitOnceSeq [':', '/', '/'] ('t' :: 'p' :: 'r' :: 'o' :: 'x' :: 'y' :: '+' :: 't' :: 'c' :: 'p' :: ':' :: '/' :: '/' :: s)
      = some (['t', 'p', 'r', 'o', 'x', 'y', '+', 't', 'c', 'p'], s)
  simp [splitOnceSeq, List.isPrefixOf]

lemma split_scheme_tproxyUdp (s : List Char) :
    splitOnceSeq (str "://") (str "tproxy+udp://" ++ s) = some (str "tproxy+udp", s) := by
  show splitOnceSeq [':', '/', '/'] ('t' :: 'p' :: 'r' :: 'o' :: 'x' :: 'y' :: '+' :: 'u' :: 'd' :: 'p' :: ':' :: '/' :: '/' :: s)
      = some (['t', 'p', 'r', 'o', 'x', 'y', '+', 'u', 'd', 'p'], s)
  simp [splitOnceSeq, List.isPrefixOf]

lemma parseTunnelArg_tcp (ti : List Char) :
    parseTunnelArg (str "tcp://" ++ ti)
      = Except.bind (parseLocalBind ti) (fun lb =>
          Except.bind (parseTunnelDest lb.2) (fun d =>
            .ok ⟨.tcp (getProxyProtocol d.2.2), lb.1, (d.1, d.2.1)⟩)) := by
  unfold parseTunnelArg
  rw [split_scheme_tcp]
  dsimp only []
  rw [if_pos rfl]
  rcases hlb : parseLocalBind ti with e | ⟨lb, rem⟩
  · rfl
  · rcases hd : parseTunnelDest rem with e | ⟨h, p, opts⟩ <;> rfl

lemma parseTunnelArg_udp (ti : List Char) :
    parseTunnelArg (str "udp://" ++ ti)
      = Except.bind (parseLocalBind ti) (fun lb =>
          Except.bind (parseTunnelDest lb.2) (fun d =>
            .ok ⟨.udp (getTimeout d.2.2), lb.1, (d.1, d.2.1)⟩)) := by
  unfold parseTunnelArg
  rw [split_scheme_udp]
  dsimp only []
  rw [if_neg (by decide), if_pos rfl]
  rcases hlb : parseLocalBind ti with e | ⟨lb, rem⟩
  · rfl
  · rcases hd : parseTunnelDest rem with e | ⟨h, p, opts⟩ <;> rfl

lemma parseTunnelArg_unix (ti : List Char) :
    parseTunnelArg (str "unix://" ++ ti)
      = (match splitOnceCh ':' ti with
        | none => .error "cannot parse unix socket path"
        | some pr =>
          Except.bind (parseTunnelDest pr.2) (fun d =>
            .ok ⟨.unix pr.1 (getProxyProtocol d.2.2), ⟨.v6 [0, 0, 0, 0, 0, 0, 0, 0], 0⟩,
              (d.1, d.2.1)⟩)) := by
  unfold parseTunnelArg
  rw [split_scheme_unix]
  dsimp only []
  rw [if_neg (by decide), if_neg (by decide), if_pos rfl]
  rcases hsp : splitOnceCh ':' ti with - | ⟨path, rem⟩
  · rfl
  · rcases hd : parseTunnelDest rem with e | ⟨h, p, opts⟩ <;> rfl

lemma parseTunnelArg_http (ti : List Char) :
    parseTunnelArg (str "http://" ++ ti)
      = Except.bind (parseLocalBind ti) (fun lb =>
          Except.bind (parseTunnelDest (str "0.0.0.0:0?" ++ lb.2)) (fun d =>
            .ok ⟨.httpProxy (getTimeout d.2.2) (getCredentials d.2.2) (getProxyProtocol d.2.2),
              lb.1, (d.1, d.2.1)⟩)) := by
  unfold parseTunnelArg
  rw [split_scheme_http]
  dsimp only []
  rw [if_neg (by decide), if_neg (by decide), if_neg (by decide), if_pos rfl]
  rcases hlb : parseLocalBind ti with e | ⟨lb, rem⟩
  · rfl
  · rcases hd : parseTunnelDest (str "0.0.0.0:0?" ++ rem) with e | ⟨h, p, opts⟩ <;> rfl

lemma parseTunnelArg_socks5 (ti : List Char) :
    parseTunnelArg (str "socks5://" ++ ti)
      = Except.bind (parseLocalBind ti) (fun lb =>
          Except.bind (parseTunnelDest (str "0.0.0.0:0?" ++ lb.2)) (fun d =>
            .ok ⟨.socks5 (getTimeout d.2.2) (getCredentials d.2.2), lb.1, (d.1, d.2.1)⟩)) := by
  unfold parseTunnelArg
  rw [split_scheme_socks5]
  dsimp only []
  rw [if_neg (by decide), if_neg (by decide), if_neg (by decide), if_neg (by decide),
    if_pos rfl]
  rcases hlb : parseLocalBind ti with e | ⟨lb, rem⟩
  · rfl
  · rcases hd : parseTunnelDest (str "0.0.0.0:0?" ++ rem) with e | ⟨h, p, opts⟩ <;> rfl

lemma parseTunnelArg_stdio (ti : List Char) :
    parseTunnelArg (str "stdio://" ++ ti)
      = Except.bind (parseTunnelDest ti) (fun d =>
          .ok ⟨.stdio (getProxyProtocol d.2.2), ⟨.v4 0 0 0 0, 0⟩, (d.1, d.2.1)⟩) := by
  unfold parseTunnelArg
  rw [split_scheme_stdio]
  dsimp only []
  rw [if_neg (by decide), if_neg (by decide), if_neg (by decide), if_neg (by decide),
    if_neg (by decide), if_pos rfl]
  rcases hd : parseTunnelDest ti with e | ⟨h, p, opts⟩ <;> rfl

lemma parseTunnelArg_tproxyTcp (ti : List Char) :
    parseTunnelArg (str "tproxy+tcp://" ++ ti)
      = Except.bind (parseLocalBind ti) (fun lb =>
          Except.bind (parseTunnelDest (str "0.0.0.0:0?" ++ lb.2)) (fun d =>
            .ok ⟨.tproxyTcp, lb.1, (d.1, d.2.1)⟩)) := by
  unfold parseTunnelArg
  rw [split_scheme_tproxyTcp]
  dsimp only []
  rw [if_neg (by decide), if_neg (by decide), if_neg (by decide), if_neg (by decide),
    if_neg (by decide), if_neg (by decide), if_pos rfl]
  rcases hlb : parseLocalBind ti with e | ⟨lb, rem⟩
  · rfl
  · rcases hd : parseTunnelDest (str "0.0.0.0:0?" ++ rem) with e | ⟨h, p, opts⟩ <;> rfl

lemma parseTunnelArg_tproxyUdp (ti : List Char) :
    parseTunnelArg (str "tproxy+udp://" ++ ti)
      = Except.bind (parseLocalBind ti) (fun lb =>
          Except.bind (parseTunnelDest (str "0.0.0.0:0?" ++ lb.2)) (fun d =>
            .ok ⟨.tproxyUdp (getTimeout d.2.2), lb.1, (d.1, d.2.1)⟩)) := by
  unfold parseTunnelArg
  rw [split_scheme_tproxyUdp]
  dsimp only []
  rw [if_neg (by decide), if_neg (by decide), if_neg (by decide), if_neg (by decide),
    if_neg (by decide), if_neg (by decide), if_neg (by decide), if_pos rfl]
  rcases hlb : parseLocalBind ti with e | ⟨lb, rem⟩
  · rfl
  · rcases hd : parseTunnelDest (str "0.0.0.0:0?" ++ rem) with e | ⟨h, p, opts⟩ <;> rfl

/-! ### What successful parses guarantee -/

lemma exceptBind_ok {α β : Type} {x : Except String α} {f : α → Except String β} {b : β}
    (h : Except.bind x f = .ok b) : ∃ a, x = .ok a ∧ f a = .ok b := by
  rcases x with e | a
  · cases h
  · exact ⟨a, rfl, h⟩

lemma hexVal_lt {c : Char} {d : Nat} (h : hexVal c = some d) : d < 16 := by
  unfold hexVal at h
  split at h <;> first
    | (injection h with h2; omega)
    | (unfold digitVal at h; split at h <;> first | (injection h with h2; omega) | cases h)

lemma readHex_lt {l : List Char} : ∀ {a v : Nat}, readHex l a = some v →
    v < (a + 1) * 16 ^ l.length := by
  induction l with
  | nil =>
    intro a v h
    injection h with h2
    simp [← h2]
  | cons c cs ih =>
    intro a v h
    unfold readHex at h
    rcases hc : hexVal c with - | d
    · rw [hc] at h; cases h
    · rw [hc] at h
      have hd : d < 16 := hexVal_lt hc
      have := ih h
      have h16 : (16 * a + d + 1) * 16 ^ cs.length ≤ (a + 1) * 16 ^ (cs.length + 1) := by
        rw [pow_succ]
        nlinarith [pow_pos (show 0 < 16 by norm_num) cs.length]
      calc v < (16 * a + d + 1) * 16 ^ cs.length := this
        _ ≤ (a + 1) * 16 ^ (cs.length + 1) := h16
        _ = (a + 1) * 16 ^ (c :: cs).length := by rw [List.length_cons]

lemma hexGroup_lt {l : List Char} {g : Nat} (h : hexGroup l = some g) : g < 65536 := by
  unfold hexGroup at h
  split at h
  · unfold parseHex at h
    split at h
    · cases h
    · have := readHex_lt h
      rename_i hlen _
      calc g < (0 + 1) * 16 ^ l.length := this
        _ ≤ 1 * 16 ^ 4 := by
          apply Nat.mul_le_mul_left
          exact Nat.pow_le_pow_right (by norm_num) hlen
        _ = 65536 := by norm_num
  · cases h

lemma ipv4Octet_le {l : List Char} {v : Nat} (h : ipv4Octet l = some v) : v ≤ 255 := by
  unfold ipv4Octet at h
  split at h
  · cases h
  · injection h with h2; omega
  · cases h
  · split at h
    · split at h
      · injection h with h2; omega
      · cases h
    · cases h

lemma ipv4FromStr_bounds {l : List Char} {a b c d : Nat}
    (h : ipv4FromStr l = some (a, b, c, d)) : a ≤ 255 ∧ b ≤ 255 ∧ c ≤ 255 ∧ d ≤ 255 := by
  unfold ipv4FromStr at h
  split at h
  · rename_i p1 p2 p3 p4
    split at h
    · rename_i a2 b2 c2 d2 h1 h2 h3 h4
      injection h with h5
      obtain ⟨rfl, rfl, rfl, rfl⟩ : a2 = a ∧ b2 = b ∧ c2 = c ∧ d2 = d := by
        simpa using h5
      exact ⟨ipv4Octet_le h1, ipv4Octet_le h2, ipv4Octet_le h3, ipv4Octet_le h4⟩
    · cases h
  · cases h

lemma ipv6Groups_bounds {allowD : Bool} : ∀ {ps : List (List Char)} {gs : List Nat},
    ipv6Groups allowD ps = some gs → ∀ g ∈ gs, g < 65536 := by
  intro ps
  induction ps with
  | nil =>
    intro gs h g hg
    injection h with h2
    rw [← h2] at hg
    cases hg
  | cons p ps ih =>
    intro gs h g hg
    rcases ps with - | ⟨q, qs⟩
    · unfold ipv6Groups at h
      split at h
      · split at h
        · rename_i a b c d hq
          injection h with h2
          rw [← h2] at hg
          have hb := ipv4FromStr_bounds hq
          rcases List.mem_cons.mp hg with rfl | hg2
          · omega
          · rcases List.mem_cons.mp hg2 with rfl | hg3
            · omega
            · cases hg3
        · cases h
      · rcases hgp : hexGroup p with - | g2
        · rw [hgp] at h; cases h
        · rw [hgp] at h
          injection h with h2
          rw [← h2] at hg
          rcases List.mem_singleton.mp hg with rfl
          exact hexGroup_lt hgp
    · unfold ipv6Groups at h
      rcases hgp : hexGroup p with - | g2
      · rw [hgp] at h; cases h
      · rw [hgp] at h
        rcases hrest : ipv6Groups allowD (q :: qs) with - | gs2
        · rw [hrest] at h; cases h
        · rw [hrest] at h
          injection h with h2
          rw [← h2] at hg
          rcases List.mem_cons.mp hg with rfl | hg2
          · exact hexGroup_lt hgp
          · exact ih hrest g hg2

lemma ipv6Side_bounds {allowD : Bool} {l : List Char} {gs : List Nat}
    (h : ipv6Side allowD l = some gs) : ∀ g ∈ gs, g < 65536 := by
  unfold ipv6Side at h
  split at h
  · injection h with h2
    rw [← h2]
    intro g hg
    cases hg
  · exact ipv6Groups_bounds h

lemma ipv6FromStr_valid {l : List Char} {gs : List Nat} (h : ipv6FromStr l = some gs) :
    gs.length = 8 ∧ ∀ g ∈ gs, g < 65536 := by
  unfold ipv6FromStr at h
  split at h
  · rename_i lft rgt heq
    split at h
    · cases h
    · rcases hL : ipv6Side false lft with - | gl
      · rw [hL] at h; cases h
      · rw [hL] at h
        rcases hR : ipv6Side true rgt with - | gr
        · rw [hR] at h; cases h
        · rw [hR] at h
          dsimp only [] at h
          split at h
          · rename_i hle
            injection h with h2
            subst h2
            constructor
            · simp only [List.length_append, List.length_replicate]
              omega
            · intro g hg
              rcases List.mem_append.mp hg with hg2 | hg2
              · rcases List.mem_append.mp hg2 with hg3 | hg3
                · exact ipv6Side_bounds hL g hg3
                · rw [List.eq_of_mem_replicate hg3]
                  norm_num
              · exact ipv6Side_bounds hR g hg2
          · cases h
  · rcases hS : ipv6Side true l with - | gs2
    · rw [hS] at h; cases h
    · rw [hS] at h
      dsimp only [] at h
      split at h
      · rename_i hlen
        injection h with h2
        subst h2
        exact ⟨hlen, ipv6Side_bounds hS⟩
      · cases h

lemma parseRustUInt_le {bound : Nat} {l : List Char} {v : Nat}
    (h : parseRustUInt bound l = some v) : v ≤ bound := by
  unfold parseRustUInt at h
  dsimp only [] at h
  split at h <;>
    (split at h
     · split at h
       · injection h with h2; omega
       · cases h
     · cases h)

lemma char_toNat_ofNat {n : Nat} (h : n < 55296) : (Char.ofNat n).toNat = n := by
  unfold Char.ofNat
  rw [dif_pos (Or.inl h : n.isValidChar)]
  rfl

lemma lowerCh_eq_self {d : Char} (hd : ¬ (65 ≤ d.toNat ∧ d.toNat ≤ 90)) : lowerCh d = d := by
  unfold lowerCh
  rw [if_neg hd]

lemma lowerCh_idem (c : Char) : lowerCh (lowerCh c) = lowerCh c := by
  by_cases h : 65 ≤ c.toNat ∧ c.toNat ≤ 90
  · have h1 : lowerCh c = Char.ofNat (c.toNat + 32) := by unfold lowerCh; rw [if_pos h]
    have h2 : (lowerCh c).toNat = c.toNat + 32 := by
      rw [h1]; exact char_toNat_ofNat (by omega)
    exact lowerCh_eq_self (by rw [h2]; omega)
  · rw [lowerCh_eq_self h, lowerCh_eq_self h]

lemma whatwgIpv4_bounds {l : List Char} {a b c d : Nat}
    (h : whatwgIpv4 l = some (a, b, c, d)) : a ≤ 255 ∧ b ≤ 255 ∧ c ≤ 255 ∧ d ≤ 255 := by
  unfold whatwgIpv4 at h
  dsimp only [] at h
  by_cases h1 : ((List.map parseDec
      (if lastOf (splitAllCh '.' l) = some [] then dropLastOf (splitAllCh '.' l)
        else splitAllCh '.' l)).any fun x => x.isNone) = true
  · rw [if_pos h1] at h
    cases h
  rw [if_neg h1] at h
  set ns := List.map (fun x => x.getD 0) (List.map parseDec
      (if lastOf (splitAllCh '.' l) = some [] then dropLastOf (splitAllCh '.' l)
        else splitAllCh '.' l)) with hns
  by_cases h2 : ns.length = 0 ∨ 4 < ns.length
  · rw [if_pos h2] at h
    cases h
  rw [if_neg h2] at h
  by_cases h3 : ((dropLastOf ns).any fun x => decide (255 < x)) = true
  · rw [if_pos h3] at h
    cases h
  rw [if_neg h3] at h
  rcases hlast : lastOf ns with - | last
  · rw [hlast] at h
    cases h
  rw [hlast] at h
  dsimp only [] at h
  by_cases h4 : 256 ^ (5 - ns.length) ≤ last
  · rw [if_pos h4] at h
    cases h
  rw [if_neg h4] at h
  injection h with h5
  obtain ⟨rfl, rfl, rfl, rfl⟩ : _ = a ∧ _ = b ∧ _ = c ∧ _ = d := by simpa using h5
  refine ⟨?_, ?_, ?_, ?_⟩ <;>
    exact Nat.le_of_lt_succ (Nat.mod_lt _ (by norm_num))

lemma parseHostText_valid {t : List Char} {h : UHost} (hp : parseHostText t = .ok h) :
    ValidHost h := by
  unfold parseHostText at hp
  split at hp
  · cases hp
  · rename_i hne
    dsimp only [] at hp
    split at hp
    · cases hp
    · rename_i hforb
      split at hp
      · rename_i hnum
        split at hp
        · rename_i a b c d hwat
          injection hp with h2
          subst h2
          exact whatwgIpv4_bounds hwat
        · cases hp
      · rename_i hnum
        injection hp with h2
        subst h2
        refine ⟨?_, ?_, ?_, ?_⟩
        · intro hmap
          apply hne
          rcases t with - | ⟨x, xs⟩
          · rfl
          · cases hmap
        · intro c hc
          by_contra hcc
          apply hforb
          refine List.any_eq_true.mpr ⟨c, hc, ?_⟩
          revert hcc
          cases isForbiddenHostCh c <;> simp
        · intro c hc
          rcases List.mem_map.mp hc with ⟨x, -, rfl⟩
          exact lowerCh_idem x
        · revert hnum
          cases endsInNumber (List.map lowerCh t) <;> simp

lemma exceptBind_ok_eq {α β : Type} (a : α) (f : α → Except String β) :
    (Except.ok a >>= f : Except String β) = f a := rfl

lemma parseLocalBind_valid {ti : List Char} {sa : SockAddr} {rem : List Char}
    (h : parseLocalBind ti = .ok (sa, rem)) : ValidAddr sa := by
  unfold parseLocalBind at h
  by_cases hbr : ti.head? = some '['
  · rw [if_pos hbr] at h
    rcases hsp : splitOnceCh ']' ti with - | ⟨l6, rest⟩
    · rw [hsp] at h
      cases h
    rw [hsp] at h
    dsimp only [] at h
    rcases h6 : ipv6FromStr (l6.drop 1) with - | gs
    · rw [h6] at h
      cases h
    rw [h6] at h
    dsimp only [] at h
    rw [exceptBind_ok_eq] at h
    dsimp only [] at h
    generalize hq : (splitOnceAny [':', '?']
        (List.dropWhile (fun x => decide (x = ':')) rest)).getD
        (List.dropWhile (fun x => decide (x = ':')) rest, []) = q at h
    rcases hpu : parseRustUInt 65535 q.1 with - | p
    · rw [hpu] at h
      cases h
    rw [hpu] at h
    injection h with h2
    obtain ⟨rfl, -⟩ : (⟨.v6 gs, p⟩ : SockAddr) = sa ∧ q.2 = rem := by
      constructor
      · exact congrArg Prod.fst h2
      · exact congrArg Prod.snd h2
    obtain ⟨hlen, hbd⟩ := ipv6FromStr_valid h6
    exact ⟨⟨hlen, hbd⟩, parseRustUInt_le hpu⟩
  · rw [if_neg hbr] at h
    dsimp only [] at h
    rcases h4 : ipv4FromStr ((splitOnceCh ':' ti).getD (ti, [])).1 with - | ⟨a, b, c, d⟩
    · rw [h4] at h
      dsimp only [] at h
      rw [exceptBind_ok_eq] at h
      dsimp only [] at h
      generalize hq : (splitOnceAny [':', '?']
          (List.dropWhile (fun x => decide (x = ':')) ti)).getD
          (List.dropWhile (fun x => decide (x = ':')) ti, []) = q at h
      rcases hpu : parseRustUInt 65535 q.1 with - | p
      · rw [hpu] at h
        cases h
      rw [hpu] at h
      injection h with h2
      obtain rfl : (⟨.v4 127 0 0 1, p⟩ : SockAddr) = sa := congrArg Prod.fst h2
      exact ⟨by norm_num, parseRustUInt_le hpu⟩
    · rw [h4] at h
      dsimp only [] at h
      rw [exceptBind_ok_eq] at h
      dsimp only [] at h
      generalize hq : (splitOnceAny [':', '?']
          (List.dropWhile (fun x => decide (x = ':'))
            ((splitOnceCh ':' ti).getD (ti, [])).2)).getD
          (List.dropWhile (fun x => decide (x = ':'))
            ((splitOnceCh ':' ti).getD (ti, [])).2, []) = q at h
      rcases hpu : parseRustUInt 65535 q.1 with - | p
      · rw [hpu] at h
        cases h
      rw [hpu] at h
      injection h with h2
      obtain rfl : (⟨.v4 a b c d, p⟩ : SockAddr) = sa := congrArg Prod.fst h2
      exact ⟨ipv4FromStr_bounds h4, parseRustUInt_le hpu⟩

lemma urlPort_le {l : List Char} {p : Nat} (h : urlPort l = .ok (some p)) : p ≤ 65535 := by
  unfold urlPort at h
  split at h
  · cases h
  · split at h
    · split at h
      · rename_i hv _
        split at h
        · cases h
        · injection h with h2
          injection h2 with h3
          omega
      · cases h
    · cases h

lemma parseAuthority_valid {auth : List Char} {h : UHost} {p? : Option Nat}
    (ha : parseAuthority auth = .ok (h, p?)) :
    ValidHost h ∧ ∀ p, p? = some p → p ≤ 65535 := by
  unfold parseAuthority at ha
  dsimp only [] at ha
  split at ha
  · split at ha
    · cases ha
    · rename_i br rest hsp
      split at ha
      · cases ha
      · rename_i gs h6
        split at ha
        · rcases hup : urlPort [] with e | pv
          · rw [hup] at ha; cases ha
          · rw [hup] at ha
            injection ha with h2
            obtain ⟨rfl, rfl⟩ : UHost.ipv6 gs = h ∧ pv = p? := by
              exact ⟨congrArg Prod.fst h2, congrArg Prod.snd h2⟩
            obtain ⟨hlen, hbd⟩ := ipv6FromStr_valid h6
            exact ⟨⟨hlen, hbd⟩, fun p hp => urlPort_le (hp ▸ hup)⟩
        · rename_i ptext
          rcases hup : urlPort ptext with e | pv
          · rw [hup] at ha; cases ha
          · rw [hup] at ha
            injection ha with h2
            obtain ⟨rfl, rfl⟩ : UHost.ipv6 gs = h ∧ pv = p? := by
              exact ⟨congrArg Prod.fst h2, congrArg Prod.snd h2⟩
            obtain ⟨hlen, hbd⟩ := ipv6FromStr_valid h6
            exact ⟨⟨hlen, hbd⟩, fun p hp => urlPort_le (hp ▸ hup)⟩
        · cases ha
  · split at ha
    · rename_i htext ptext hsp
      rcases hht : parseHostText htext with e | h2
      · rw [hht] at ha; cases ha
      · rw [hht] at ha
        rw [exceptBind_ok_eq] at ha
        rcases hup : urlPort ptext with e | pv
        · rw [hup] at ha; cases ha
        · rw [hup] at ha
          rw [exceptBind_ok_eq] at ha
          injection ha with h3
          obtain ⟨rfl, rfl⟩ : h2 = h ∧ pv = p? :=
            ⟨congrArg Prod.fst h3, congrArg Prod.snd h3⟩
          exact ⟨parseHostText_valid hht, fun p hp => urlPort_le (hp ▸ hup)⟩
    · rcases hht : parseHostText (dropUserinfo auth) with e | h2
      · rw [hht] at ha; cases ha
      · rw [hht] at ha
        rw [exceptBind_ok_eq] at ha
        rcases hup : urlPort [] with e | pv
        · rw [hup] at ha; cases ha
        · rw [hup] at ha
          rw [exceptBind_ok_eq] at ha
          injection ha with h3
          obtain ⟨rfl, rfl⟩ : h2 = h ∧ pv = p? :=
            ⟨congrArg Prod.fst h3, congrArg Prod.snd h3⟩
          exact ⟨parseHostText_valid hht, fun p hp => urlPort_le (hp ▸ hup)⟩

lemma urlParse_valid {l : List Char} {h : UHost} {p? : Option Nat} {q : List Char}
    (hu : urlParse l = .ok (h, p?, q)) :
    ValidHost h ∧ ∀ p, p? = some p → p ≤ 65535 := by
  unfold urlParse at hu
  dsimp only [] at hu
  rcases hpa : parseAuthority (spanList (fun c => !isAuthorityEnd c) l).1 with e | ⟨h2, pv⟩
  · rw [hpa] at hu; cases hu
  · rw [hpa] at hu
    rw [exceptBind_ok_eq] at hu
    injection hu with h3
    obtain ⟨rfl, rfl⟩ : h2 = h ∧ pv = p? := by
      refine ⟨congrArg Prod.fst h3, ?_⟩
      have := congrArg Prod.snd h3
      exact congrArg Prod.fst this
    exact parseAuthority_valid hpa

lemma parseTunnelDest_valid {l : List Char} {h : UHost} {p : Nat} {opts : Options}
    (hd : parseTunnelDest l = .ok (h, p, opts)) : ValidHost h ∧ p ≤ 65535 := by
  unfold parseTunnelDest at hd
  rcases hu : urlParse l with e | ⟨h2, p?, q⟩
  · rw [hu] at hd; cases hd
  · rw [hu] at hd
    rw [exceptBind_ok_eq] at hd
    obtain ⟨hvh, hple⟩ := urlParse_valid hu
    dsimp only [] at hd
    rcases p? with - | pv
    · by_cases hcond : (endsWithSeq (str ":443") l || containsSeq (str ":443?") l) = true
      · rw [if_pos hcond] at hd
        injection hd with h3
        obtain ⟨rfl, rfl, rfl⟩ : h2 = h ∧ 443 = p ∧ optionsOf q = opts := by
          simpa [Prod.ext_iff] using h3
        exact ⟨hvh, by norm_num⟩
      · rw [if_neg hcond] at hd
        cases hd
    · injection hd with h3
      obtain ⟨rfl, rfl, rfl⟩ : h2 = h ∧ pv = p ∧ optionsOf q = opts := by
        simpa [Prod.ext_iff] using h3
      exact ⟨hvh, hple pv rfl⟩

lemma spanZero (rem : List Char) :
    spanList (fun c => !isAuthorityEnd c) (str "0.0.0.0:0?" ++ rem)
      = (str "0.0.0.0:0", '?' :: rem) := by
  simp [spanList, isAuthorityEnd, str]

lemma parseTunnelDest_zeroFixed (rem : List Char) :
    parseTunnelDest (str "0.0.0.0:0?" ++ rem)
      = .ok (.ipv4 0 0 0 0, 0, optionsOf (rem.takeWhile (· ≠ '#'))) := by
  unfold parseTunnelDest urlParse
  rw [spanZero]
  rfl

lemma splitOnceCh_left_not_mem {c : Char} : ∀ {l a b : List Char},
    splitOnceCh c l = some (a, b) → c ∉ a := by
  intro l
  induction l with
  | nil => intro a b h; cases h
  | cons x xs ih =>
    intro a b h
    unfold splitOnceCh at h
    split at h
    · injection h with h2
      obtain ⟨rfl, -⟩ : [] = a ∧ xs = b := by simpa [Prod.ext_iff] using h2
      intro hm; cases hm
    · rename_i hx
      rcases hxs : splitOnceCh c xs with - | ⟨a2, b2⟩
      · rw [hxs] at h; cases h
      · rw [hxs] at h
        dsimp only [Option.map] at h
        injection h with h2
        obtain ⟨rfl, -⟩ : x :: a2 = a ∧ b2 = b := by simpa [Prod.ext_iff] using h2
        intro hm
        rcases List.mem_cons.mp hm with rfl | hm2
        · exact hx rfl
        · exact ih hxs hm2

lemma exceptBind_err_eq {α β : Type} (e : String) (f : α → Except String β) :
    (Except.error e >>= f : Except String β) = .error e := rfl

lemma parse_valid {arg : List Char} {l : LocalToRemote}
    (h : parseTunnelArg arg = .ok l) : ValidParse l := by
  unfold parseTunnelArg at h
  rcases hs : splitOnceSeq (str "://") arg with - | ⟨proto, ti⟩
  · rw [hs] at h; cases h
  rw [hs] at h
  dsimp only [] at h
  by_cases h1 : proto = str "tcp"
  · rw [if_pos h1] at h
    rcases hb : parseLocalBind ti with e | ⟨lb, rem⟩
    · rw [hb, exceptBind_err_eq] at h; cases h
    rw [hb, exceptBind_ok_eq] at h
    dsimp only [] at h
    rcases hd : parseTunnelDest rem with e | ⟨dh, dp, opts⟩
    · rw [hd, exceptBind_err_eq] at h; cases h
    rw [hd, exceptBind_ok_eq] at h
    dsimp only [] at h
    injection h with h
    subst h
    exact ⟨parseLocalBind_valid hb, (parseTunnelDest_valid hd).1,
      (parseTunnelDest_valid hd).2, trivial⟩
  rw [if_neg h1] at h
  by_cases h2 : proto = str "udp"
  · rw [if_pos h2] at h
    rcases hb : parseLocalBind ti with e | ⟨lb, rem⟩
    · rw [hb, exceptBind_err_eq] at h; cases h
    rw [hb, exceptBind_ok_eq] at h
    dsimp only [] at h
    rcases hd : parseTunnelDest rem with e | ⟨dh, dp, opts⟩
    · rw [hd, exceptBind_err_eq] at h; cases h
    rw [hd, exceptBind_ok_eq] at h
    dsimp only [] at h
    injection h with h
    subst h
    exact ⟨parseLocalBind_valid hb, (parseTunnelDest_valid hd).1,
      (parseTunnelDest_valid hd).2, trivial⟩
  rw [if_neg h2] at h
  by_cases h3 : proto = str "unix"
  · rw [if_pos h3] at h
    rcases hu : splitOnceCh ':' ti with - | ⟨path, remote⟩
    · rw [hu] at h; cases h
    rw [hu] at h
    dsimp only [] at h
    rcases hd : parseTunnelDest remote with e | ⟨dh, dp, opts⟩
    · rw [hd, exceptBind_err_eq] at h; cases h
    rw [hd, exceptBind_ok_eq] at h
    dsimp only [] at h
    injection h with h
    subst h
    refine ⟨?_, (parseTunnelDest_valid hd).1, (parseTunnelDest_valid hd).2,
      ⟨splitOnceCh_left_not_mem hu, rfl⟩⟩
    show ValidAddr ⟨.v6 [0, 0, 0, 0, 0, 0, 0, 0], 0⟩
    exact ⟨⟨by decide, by decide⟩, by decide⟩
  rw [if_neg h3] at h
  by_cases h4 : proto = str "http"
  · rw [if_pos h4] at h
    rcases hb : parseLocalBind ti with e | ⟨lb, rem⟩
    · rw [hb, exceptBind_err_eq] at h; cases h
    rw [hb, exceptBind_ok_eq] at h
    dsimp only [] at h
    rw [parseTunnelDest_zeroFixed, exceptBind_ok_eq] at h
    dsimp only [] at h
    injection h with h
    subst h
    refine ⟨parseLocalBind_valid hb, ?_, ?_, rfl⟩
    · show ValidHost (.ipv4 0 0 0 0)
      exact ⟨by decide, by decide, by decide, by decide⟩
    · show (0 : Nat) ≤ 65535
      decide
  rw [if_neg h4] at h
  by_cases h5 : proto = str "socks5"
  · rw [if_pos h5] at h
    rcases hb : parseLocalBind ti with e | ⟨lb, rem⟩
    · rw [hb, exceptBind_err_eq] at h; cases h
    rw [hb, exceptBind_ok_eq] at h
    dsimp only [] at h
    rw [parseTunnelDest_zeroFixed, exceptBind_ok_eq] at h
    dsimp only [] at h
    injection h with h
    subst h
    refine ⟨parseLocalBind_valid hb, ?_, ?_, rfl⟩
    · show ValidHost (.ipv4 0 0 0 0)
      exact ⟨by decide, by decide, by decide, by decide⟩
    · show (0 : Nat) ≤ 65535
      decide
  rw [if_neg h5] at h
  by_cases h6 : proto = str "stdio"
  · rw [if_pos h6] at h
    rcases hd : parseTunnelDest ti with e | ⟨dh, dp, opts⟩
    · rw [hd, exceptBind_err_eq] at h; cases h
    rw [hd, exceptBind_ok_eq] at h
    dsimp only [] at h
    injection h with h
    subst h
    refine ⟨?_, (parseTunnelDest_valid hd).1, (parseTunnelDest_valid hd).2, rfl⟩
    show ValidAddr ⟨.v4 0 0 0 0, 0⟩
    exact ⟨⟨by decide, by decide, by decide, by decide⟩, by decide⟩
  rw [if_neg h6] at h
  by_cases h7 : proto = str "tproxy+tcp"
  · rw [if_pos h7] at h
    rcases hb : parseLocalBind ti with e | ⟨lb, rem⟩
    · rw [hb, exceptBind_err_eq] at h; cases h
    rw [hb, exceptBind_ok_eq] at h
    dsimp only [] at h
    rw [parseTunnelDest_zeroFixed, exceptBind_ok_eq] at h
    dsimp only [] at h
    injection h with h
    subst h
    refine ⟨parseLocalBind_valid hb, ?_, ?_, rfl⟩
    · show ValidHost (.ipv4 0 0 0 0)
      exact ⟨by decide, by decide, by decide, by decide⟩
    · show (0 : Nat) ≤ 65535
      decide
  rw [if_neg h7] at h
  by_cases h8 : proto = str "tproxy+udp"
  · rw [if_pos h8] at h
    rcases hb : parseLocalBind ti with e | ⟨lb, rem⟩
    · rw [hb, exceptBind_err_eq] at h; cases h
    rw [hb, exceptBind_ok_eq] at h
    dsimp only [] at h
    rw [parseTunnelDest_zeroFixed, exceptBind_ok_eq] at h
    dsimp only [] at h
    injection h with h
    subst h
    refine ⟨parseLocalBind_valid hb, ?_, ?_, rfl⟩
    · show ValidHost (.ipv4 0 0 0 0)
      exact ⟨by decide, by decide, by decide, by decide⟩
    · show (0 : Nat) ≤ 65535
      decide
  rw [if_neg h8] at h
  cases h

lemma ebind_ok {α β : Type} (a : α) (f : α → Except String β) :
    Except.bind (Except.ok a) f = f a := rfl

lemma sockAddrStr_ne_nil (sa : SockAddr) : sockAddrStr sa ≠ [] := by
  obtain ⟨ip, port⟩ := sa
  rcases ip with ⟨a, b, c, d⟩ | gs <;> simp [sockAddrStr, ipv4Str]

lemma splitOnceCh_mk {c : Char} : ∀ {a : List Char}, c ∉ a →
    ∀ b, splitOnceCh c (a ++ c :: b) = some (a, b) := by
  intro a
  induction a with
  | nil =>
    intro _ b
    show (if c = c then some (([] : List Char), b)
        else (splitOnceCh c b).map (fun p => (c :: p.1, p.2))) = some ([], b)
    rw [if_pos rfl]
  | cons x xs ih =>
    intro hm b
    have hx : ¬(x = c) := fun h2 => hm (h2 ▸ List.mem_cons_self x xs)
    rw [List.cons_append]
    unfold splitOnceCh
    rw [if_neg hx, ih (fun h2 => hm (List.mem_cons_of_mem _ h2)) b]
    rfl

lemma remoteZero_str :
    uHostStr (.ipv4 0 0 0 0) ++ ':' :: decDigits 0 = str "0.0.0.0:0" := by
  simp [uHostStr, ipv4Str, decDigits_zero, str]

lemma format_reparse {l : LocalToRemote} (hv : ValidParse l)
    (hu : unixPathNonempty l) :
    parseTunnelArg (formatLocalToRemote l) = .ok (defaulted l) := by
  obtain ⟨lp, lb, rm⟩ := l
  obtain ⟨h, p⟩ := rm
  unfold ValidParse at hv
  obtain ⟨ha, hh, hp, hx⟩ := hv
  cases lp with
  | tcp pp =>
    have hfmt : formatLocalToRemote ⟨.tcp pp, lb, (h, p)⟩
        = str "tcp://" ++ (sockAddrStr lb ++ ':' :: (uHostStr h ++ ':' :: decDigits p)) := by
      unfold formatLocalToRemote
      dsimp only []
      rw [if_neg (sockAddrStr_ne_nil lb)]
      rfl
    rw [hfmt, parseTunnelArg_tcp, parseLocalBind_sockAddr _ ha, ebind_ok]
    dsimp only []
    rw [parseTunnelDest_hostPort hh hp, ebind_ok]
    rfl
  | udp t =>
    have hfmt : formatLocalToRemote ⟨.udp t, lb, (h, p)⟩
        = str "udp://" ++ (sockAddrStr lb ++ ':' :: (uHostStr h ++ ':' :: decDigits p)) := by
      unfold formatLocalToRemote
      dsimp only []
      rw [if_neg (sockAddrStr_ne_nil lb)]
      rfl
    rw [hfmt, parseTunnelArg_udp, parseLocalBind_sockAddr _ ha, ebind_ok]
    dsimp only []
    rw [parseTunnelDest_hostPort hh hp, ebind_ok]
    rfl
  | stdio pp =>
    have hb2 : lb = ⟨.v4 0 0 0 0, 0⟩ := hx
    subst hb2
    have hfmt : formatLocalToRemote ⟨.stdio pp, ⟨.v4 0 0 0 0, 0⟩, (h, p)⟩
        = str "stdio://" ++ (uHostStr h ++ ':' :: decDigits p) := by
      unfold formatLocalToRemote
      dsimp only []
      rw [if_pos rfl]
      rfl
    rw [hfmt, parseTunnelArg_stdio, parseTunnelDest_hostPort hh hp, ebind_ok]
    rfl
  | socks5 t cred =>
    have hx2 : (h, p) = ((UHost.ipv4 0 0 0 0 : UHost), (0 : Nat)) := hx
    injection hx2 with he1 he2
    subst he1; subst he2
    have hfmt : formatLocalToRemote ⟨.socks5 t cred, lb, (.ipv4 0 0 0 0, 0)⟩
        = str "socks5://" ++ (sockAddrStr lb ++ ':' :: str "0.0.0.0:0") := by
      unfold formatLocalToRemote
      dsimp only []
      rw [if_neg (sockAddrStr_ne_nil lb), remoteZero_str]
      rfl
    rw [hfmt, parseTunnelArg_socks5, parseLocalBind_sockAddr _ ha, ebind_ok]
    dsimp only []
    rw [parseTunnelDest_zeroFixed, ebind_ok]
    rfl
  | httpProxy t cred pp =>
    have hx2 : (h, p) = ((UHost.ipv4 0 0 0 0 : UHost), (0 : Nat)) := hx
    injection hx2 with he1 he2
    subst he1; subst he2
    have hfmt : formatLocalToRemote ⟨.httpProxy t cred pp, lb, (.ipv4 0 0 0 0, 0)⟩
        = str "http://" ++ (sockAddrStr lb ++ ':' :: str "0.0.0.0:0") := by
      unfold formatLocalToRemote
      dsimp only []
      rw [if_neg (sockAddrStr_ne_nil lb), remoteZero_str]
      rfl
    rw [hfmt, parseTunnelArg_http, parseLocalBind_sockAddr _ ha, ebind_ok]
    dsimp only []
    rw [parseTunnelDest_zeroFixed, ebind_ok]
    rfl
  | tproxyTcp =>
    have hx2 : (h, p) = ((UHost.ipv4 0 0 0 0 : UHost), (0 : Nat)) := hx
    injection hx2 with he1 he2
    subst he1; subst he2
    have hfmt : formatLocalToRemote ⟨.tproxyTcp, lb, (.ipv4 0 0 0 0, 0)⟩
        = str "tproxy+tcp://" ++ (sockAddrStr lb ++ ':' :: str "0.0.0.0:0") := by
      unfold formatLocalToRemote
      dsimp only []
      rw [if_neg (sockAddrStr_ne_nil lb), remoteZero_str]
      rfl
    rw [hfmt, parseTunnelArg_tproxyTcp, parseLocalBind_sockAddr _ ha, ebind_ok]
    dsimp only []
    rw [parseTunnelDest_zeroFixed, ebind_ok]
    rfl
  | tproxyUdp t =>
    have hx2 : (h, p) = ((UHost.ipv4 0 0 0 0 : UHost), (0 : Nat)) := hx
    injection hx2 with he1 he2
    subst he1; subst he2
    have hfmt : formatLocalToRemote ⟨.tproxyUdp t, lb, (.ipv4 0 0 0 0, 0)⟩
        = str "tproxy+udp://" ++ (sockAddrStr lb ++ ':' :: str "0.0.0.0:0") := by
      unfold formatLocalToRemote
      dsimp only []
      rw [if_neg (sockAddrStr_ne_nil lb), remoteZero_str]
      rfl
    rw [hfmt, parseTunnelArg_tproxyUdp, parseLocalBind_sockAddr _ ha, ebind_ok]
    dsimp only []
    rw [parseTunnelDest_zeroFixed, ebind_ok]
    rfl
  | unix path pp =>
    obtain ⟨hcp, hbind⟩ := hx
    have hb2 : lb = ⟨.v6 [0, 0, 0, 0, 0, 0, 0, 0], 0⟩ := hbind
    subst hb2
    have hu2 : path ≠ [] := hu
    have hfmt : formatLocalToRemote
          ⟨.unix path pp, ⟨.v6 [0, 0, 0, 0, 0, 0, 0, 0], 0⟩, (h, p)⟩
        = str "unix://" ++ (path ++ ':' :: (uHostStr h ++ ':' :: decDigits p)) := by
      unfold formatLocalToRemote
      dsimp only []
      rw [if_neg hu2]
      rfl
    rw [hfmt, parseTunnelArg_unix, splitOnceCh_mk hcp]
    dsimp only []
    rw [parseTunnelDest_hostPort hh hp, ebind_ok]
    rfl
  | reverseTcp => exact hx.elim
  | reverseUdp t => exact hx.elim
  | reverseSocks5 t cred => exact hx.elim
  | reverseHttpProxy t cred => exact hx.elim
  | reverseUnix path => exact hx.elim

lemma ebind_err {α β : Type} (e : String) (f : α → Except String β) :
    Except.bind (Except.error e) f = .error e := rfl

lemma splitOnceAny_mk {cs : List Char} {c : Char} (hc : c ∈ cs) :
    ∀ {a : List Char}, (∀ x ∈ a, x ∉ cs) → ∀ b,
      splitOnceAny cs (a ++ c :: b) = some (a, b) := by
  intro a
  induction a with
  | nil =>
    intro _ b
    show (if c ∈ cs then some (([] : List Char), b)
        else (splitOnceAny cs b).map (fun p => (c :: p.1, p.2))) = some ([], b)
    rw [if_pos hc]
  | cons x xs ih =>
    intro hm b
    have hx : x ∉ cs := hm x (List.mem_cons_self x xs)
    rw [List.cons_append]
    unfold splitOnceAny
    rw [if_neg hx, ih (fun y hy => hm y (List.mem_cons_of_mem _ hy)) b]
    rfl

lemma if_isEmpty_eq {α β : Type} [DecidableEq α] (l : List α) (a b : β) :
    (if l.isEmpty then a else b) = if l = [] then a else b := by
  rcases l with - | ⟨x, xs⟩ <;> simp

lemma if_isNone_eq {α β : Type} [DecidableEq α] (o : Option α) (a b : β) :
    (if o.isNone then a else b) = if o = none then a else b := by
  rcases o with - | x <;> simp

lemma if_not_eq {β : Type} (c : Bool) (a b : β) :
    (if !c then a else b) = if c = false then a else b := by
  cases c <;> simp

lemma getTimeout_eq (opts : Options) :
    getTimeout opts
      = match (optGet opts (str "timeout_sec")).bind
            (fun x => parseRustUInt (2 ^ 64 - 1) x) with
        | none => some 30
        | some d => if d = 0 then none else some d := by
  unfold getTimeout
  rcases h : (optGet opts (str "timeout_sec")).bind
      (fun x => parseRustUInt (2 ^ 64 - 1) x) with - | d <;> rfl

/-- C1 (amended): parse, then format, then parse again recovers the parsed
tunnel with its per-protocol options reset to their optionless defaults (the
formatter drops the query options), provided a Unix route's socket path is
nonempty.  The original round-trip equality fails for routes carrying
options (see the counterexample). -/
theorem C1_round_trip_defaulted {arg : List Char} {l : LocalToRemote}
    (h : parseTunnelArg arg = .ok l) (hu : unixPathNonempty l) :
    parseTunnelArg (formatLocalToRemote l) = .ok (defaulted l) :=
  format_reparse (parse_valid h) hu

/-- C1 witness: the amended round trip at a concrete tcp route. -/
theorem C1_round_trip_defaulted_witness :
    parseTunnelArg (str "tcp://443:example.com:8080?proxy_protocol")
        = .ok ⟨.tcp true, ⟨.v4 127 0 0 1, 443⟩, (.domain (str "example.com"), 8080)⟩ ∧
    parseTunnelArg (formatLocalToRemote
        ⟨.tcp true, ⟨.v4 127 0 0 1, 443⟩, (.domain (str "example.com"), 8080)⟩)
      = .ok (defaulted
          ⟨.tcp true, ⟨.v4 127 0 0 1, 443⟩, (.domain (str "example.com"), 8080)⟩) := by
  have h1 : parseTunnelArg (str "tcp://443:example.com:8080?proxy_protocol")
      = .ok ⟨.tcp true, ⟨.v4 127 0 0 1, 443⟩, (.domain (str "example.com"), 8080)⟩ := by
    decide
  exact ⟨h1, C1_round_trip_defaulted h1 (by exact trivial)⟩

/-- C1 counterexample: a tcp route with `?proxy_protocol` parses to the
proxy-protocol variant, but formatting drops the option, so reparsing the
formatted text does not recover the original tunnel. -/
theorem C1_options_dropped_counterexample :
    parseTunnelArg (str "tcp://443:example.com:8080?proxy_protocol")
        = .ok ⟨.tcp true, ⟨.v4 127 0 0 1, 443⟩, (.domain (str "example.com"), 8080)⟩ ∧
    parseTunnelArg (formatLocalToRemote
        ⟨.tcp true, ⟨.v4 127 0 0 1, 443⟩, (.domain (str "example.com"), 8080)⟩)
      ≠ .ok ⟨.tcp true, ⟨.v4 127 0 0 1, 443⟩, (.domain (str "example.com"), 8080)⟩ := by
  have h1 : parseTunnelArg (str "tcp://443:example.com:8080?proxy_protocol")
      = .ok ⟨.tcp true, ⟨.v4 127 0 0 1, 443⟩, (.domain (str "example.com"), 8080)⟩ := by
    decide
  refine ⟨h1, ?_⟩
  rw [format_reparse (parse_valid h1) (by exact trivial)]
  decide

/-- C2: whenever the forward parse yields a Tcp, Udp, Socks5, HttpProxy or
Unix tunnel, the reverse parse of the same route succeeds and swaps in the
matching reverse variant, keeping the timeout and credentials (the Tcp, Unix
and HttpProxy proxy-protocol flags are dropped) and keeping the local bind
and the remote unchanged. -/
theorem C2_reverse_preserves_options {arg : List Char} {l : LocalToRemote}
    (h : parseTunnelArg arg = .ok l) :
    (∀ pp, l.local_protocol = .tcp pp →
      parseReverseTunnelArg arg = .ok ⟨.reverseTcp, l.local_bind, l.remote⟩) ∧
    (∀ t, l.local_protocol = .udp t →
      parseReverseTunnelArg arg = .ok ⟨.reverseUdp t, l.local_bind, l.remote⟩) ∧
    (∀ t cred, l.local_protocol = .socks5 t cred →
      parseReverseTunnelArg arg = .ok ⟨.reverseSocks5 t cred, l.local_bind, l.remote⟩) ∧
    (∀ t cred pp, l.local_protocol = .httpProxy t cred pp →
      parseReverseTunnelArg arg
        = .ok ⟨.reverseHttpProxy t cred, l.local_bind, l.remote⟩) ∧
    (∀ path pp, l.local_protocol = .unix path pp →
      parseReverseTunnelArg arg = .ok ⟨.reverseUnix path, l.local_bind, l.remote⟩) := by
  refine ⟨?_, ?_, ?_, ?_, ?_⟩
  · intro pp hlp
    unfold parseReverseTunnelArg
    rw [h, exceptBind_ok_eq]
    dsimp only []
    rw [hlp]
    rfl
  · intro t hlp
    unfold parseReverseTunnelArg
    rw [h, exceptBind_ok_eq]
    dsimp only []
    rw [hlp]
    rfl
  · intro t cred hlp
    unfold parseReverseTunnelArg
    rw [h, exceptBind_ok_eq]
    dsimp only []
    rw [hlp]
    rfl
  · intro t cred pp hlp
    unfold parseReverseTunnelArg
    rw [h, exceptBind_ok_eq]
    dsimp only []
    rw [hlp]
    rfl
  · intro path pp hlp
    unfold parseReverseTunnelArg
    rw [h, exceptBind_ok_eq]
    dsimp only []
    rw [hlp]
    rfl

/-- C2 witness: a socks5 route with credentials reverses to ReverseSocks5
with the same timeout and credentials. -/
theorem C2_reverse_preserves_options_witness :
    parseTunnelArg (str "socks5://127.0.0.1:1080?login=u&password=p")
        = .ok ⟨.socks5 (some 30) (some (str "u", str "p")),
            ⟨.v4 127 0 0 1, 1080⟩, (.ipv4 0 0 0 0, 0)⟩ ∧
    parseReverseTunnelArg (str "socks5://127.0.0.1:1080?login=u&password=p")
        = .ok ⟨.reverseSocks5 (some 30) (some (str "u", str "p")),
            ⟨.v4 127 0 0 1, 1080⟩, (.ipv4 0 0 0 0, 0)⟩ := by
  have h1 : parseTunnelArg (str "socks5://127.0.0.1:1080?login=u&password=p")
      = .ok ⟨.socks5 (some 30) (some (str "u", str "p")),
          ⟨.v4 127 0 0 1, 1080⟩, (.ipv4 0 0 0 0, 0)⟩ := by decide
  exact ⟨h1, (C2_reverse_preserves_options h1).2.2.1 _ _ rfl⟩

/-- C3: routes of scheme stdio, tproxy+tcp or tproxy+udp are never valid as
reverse tunnels: `parse_reverse_tunnel_arg` returns an error on every such
route, whatever follows the scheme. -/
theorem C3_reverse_rejects_nonreversible (ti : List Char) :
    (∃ e, parseReverseTunnelArg (str "stdio://" ++ ti) = .error e) ∧
    (∃ e, parseReverseTunnelArg (str "tproxy+tcp://" ++ ti) = .error e) ∧
    (∃ e, parseReverseTunnelArg (str "tproxy+udp://" ++ ti) = .error e) := by
  refine ⟨?_, ?_, ?_⟩
  · unfold parseReverseTunnelArg
    rw [parseTunnelArg_stdio]
    rcases hd : parseTunnelDest ti with e | ⟨h, p, opts⟩
    · rw [ebind_err, exceptBind_err_eq]
      exact ⟨e, rfl⟩
    · rw [ebind_ok, exceptBind_ok_eq]
      dsimp only []
      rw [exceptBind_err_eq]
      exact ⟨_, rfl⟩
  · unfold parseReverseTunnelArg
    rw [parseTunnelArg_tproxyTcp]
    rcases hb : parseLocalBind ti with e | ⟨lb, rem⟩
    · rw [ebind_err, exceptBind_err_eq]
      exact ⟨e, rfl⟩
    · rw [ebind_ok]
      dsimp only []
      rcases hd : parseTunnelDest (str "0.0.0.0:0?" ++ rem) with e | ⟨h, p, opts⟩
      · rw [ebind_err, exceptBind_err_eq]
        exact ⟨e, rfl⟩
      · rw [ebind_ok, exceptBind_ok_eq]
        dsimp only []
        rw [exceptBind_err_eq]
        exact ⟨_, rfl⟩
  · unfold parseReverseTunnelArg
    rw [parseTunnelArg_tproxyUdp]
    rcases hb : parseLocalBind ti with e | ⟨lb, rem⟩
    · rw [ebind_err, exceptBind_err_eq]
      exact ⟨e, rfl⟩
    · rw [ebind_ok]
      dsimp only []
      rcases hd : parseTunnelDest (str "0.0.0.0:0?" ++ rem) with e | ⟨h, p, opts⟩
      · rw [ebind_err, exceptBind_err_eq]
        exact ⟨e, rfl⟩
      · rw [ebind_ok, exceptBind_ok_eq]
        dsimp only []
        rw [exceptBind_err_eq]
        exact ⟨_, rfl⟩

/-- C4: the timeout option semantics.  For udp, socks5, http and tproxy+udp
routes the parsed variant carries `getTimeout` of the parsed query options,
and `getTimeout` yields the 30-second default when `timeout_sec` is absent,
`none` (reaping disabled) when it parses to 0, and `n` when it parses to
`n > 0`. -/
theorem C4_timeout_option_semantics (ti : List Char) :
    (∀ lb rem h p opts, parseLocalBind ti = .ok (lb, rem) →
      parseTunnelDest rem = .ok (h, p, opts) →
      parseTunnelArg (str "udp://" ++ ti) = .ok ⟨.udp (getTimeout opts), lb, (h, p)⟩) ∧
    (∀ lb rem h p opts, parseLocalBind ti = .ok (lb, rem) →
      parseTunnelDest (str "0.0.0.0:0?" ++ rem) = .ok (h, p, opts) →
      parseTunnelArg (str "socks5://" ++ ti)
          = .ok ⟨.socks5 (getTimeout opts) (getCredentials opts), lb, (h, p)⟩ ∧
      parseTunnelArg (str "http://" ++ ti)
          = .ok ⟨.httpProxy (getTimeout opts) (getCredentials opts)
              (getProxyProtocol opts), lb, (h, p)⟩ ∧
      parseTunnelArg (str "tproxy+udp://" ++ ti)
          = .ok ⟨.tproxyUdp (getTimeout opts), lb, (h, p)⟩) ∧
    (∀ opts, optGet opts (str "timeout_sec") = none → getTimeout opts = some 30) ∧
    (∀ opts v, optGet opts (str "timeout_sec") = some v →
      parseRustUInt (2 ^ 64 - 1) v = some 0 → getTimeout opts = none) ∧
    (∀ opts v n, optGet opts (str "timeout_sec") = some v →
      parseRustUInt (2 ^ 64 - 1) v = some n → 0 < n → getTimeout opts = some n) := by
  refine ⟨?_, ?_, ?_, ?_, ?_⟩
  · intro lb rem h p opts hb hd
    rw [parseTunnelArg_udp, hb, ebind_ok]
    dsimp only []
    rw [hd, ebind_ok]
  · intro lb rem h p opts hb hd
    refine ⟨?_, ?_, ?_⟩
    · rw [parseTunnelArg_socks5, hb, ebind_ok]
      dsimp only []
      rw [hd, ebind_ok]
    · rw [parseTunnelArg_http, hb, ebind_ok]
      dsimp only []
      rw [hd, ebind_ok]
    · rw [parseTunnelArg_tproxyUdp, hb, ebind_ok]
      dsimp only []
      rw [hd, ebind_ok]
  · intro opts hnone
    rw [getTimeout_eq, hnone]
    rfl
  · intro opts v hv h0
    rw [getTimeout_eq, hv]
    dsimp only [Option.bind]
    rw [h0]
    rfl
  · intro opts v n hv hn hpos
    rw [getTimeout_eq, hv]
    dsimp only [Option.bind]
    rw [hn]
    dsimp only []
    rw [if_neg (by omega)]

/-- C4 witness: a udp route with `timeout_sec=0` parses with the timeout
disabled, and one with `timeout_sec=7` parses with a 7-second timeout. -/
theorem C4_timeout_option_semantics_witness :
    parseTunnelArg (str "udp://" ++ str "1212:1.1.1.1:53?timeout_sec=0")
        = .ok ⟨.udp (getTimeout [(str "timeout_sec", str "0")]),
            ⟨.v4 127 0 0 1, 1212⟩, (.ipv4 1 1 1 1, 53)⟩ ∧
    getTimeout [(str "timeout_sec", str "0")] = none ∧
    getTimeout [(str "timeout_sec", str "7")] = some 7 ∧
    getTimeout ([] : Options) = some 30 := by
  have hb : parseLocalBind (str "1212:1.1.1.1:53?timeout_sec=0")
      = .ok (⟨.v4 127 0 0 1, 1212⟩, str "1.1.1.1:53?timeout_sec=0") := by decide
  have hd : parseTunnelDest (str "1.1.1.1:53?timeout_sec=0")
      = .ok (.ipv4 1 1 1 1, 53, [(str "timeout_sec", str "0")]) := by decide
  have hg0 : optGet [(str "timeout_sec", str "0")] (str "timeout_sec")
      = some (str "0") := by decide
  have hg7 : optGet [(str "timeout_sec", str "7")] (str "timeout_sec")
      = some (str "7") := by decide
  have hgn : optGet ([] : Options) (str "timeout_sec") = none := by decide
  exact ⟨(C4_timeout_option_semantics (str "1212:1.1.1.1:53?timeout_sec=0")).1
      _ _ _ _ _ hb hd,
    (C4_timeout_option_semantics (str "")).2.2.2.1 _ _ hg0 (by decide),
    (C4_timeout_option_semantics (str "")).2.2.2.2 _ _ 7 hg7 (by decide) (by decide),
    (C4_timeout_option_semantics (str "")).2.2.1 _ hgn⟩

/-- C6: `parse_tunnel_arg` succeeds only for the eight known schemes; a
string without a `://` separator, or with any other scheme, yields an
error. -/
theorem C6_scheme_whitelist {arg : List Char} :
    (∀ l, parseTunnelArg arg = .ok l →
      ∃ proto ti, splitOnceSeq (str "://") arg = some (proto, ti) ∧
        (proto = str "tcp" ∨ proto = str "udp" ∨ proto = str "unix" ∨
         proto = str "http" ∨ proto = str "socks5" ∨ proto = str "stdio" ∨
         proto = str "tproxy+tcp" ∨ proto = str "tproxy+udp")) ∧
    (splitOnceSeq (str "://") arg = none →
      parseTunnelArg arg = .error "cannot parse protocol") ∧
    (∀ proto ti, splitOnceSeq (str "://") arg = some (proto, ti) →
      proto ∉ [str "tcp", str "udp", str "unix", str "http", str "socks5",
        str "stdio", str "tproxy+tcp", str "tproxy+udp"] →
      parseTunnelArg arg = .error "Invalid local protocol for tunnel") := by
  refine ⟨?_, ?_, ?_⟩
  · intro l hok
    unfold parseTunnelArg at hok
    rcases hs : splitOnceSeq (str "://") arg with - | ⟨proto, ti⟩
    · rw [hs] at hok; cases hok
    rw [hs] at hok
    dsimp only [] at hok
    refine ⟨proto, ti, rfl, ?_⟩
    by_cases h1 : proto = str "tcp"
    · exact Or.inl h1
    rw [if_neg h1] at hok
    by_cases h2 : proto = str "udp"
    · exact Or.inr (Or.inl h2)
    rw [if_neg h2] at hok
    by_cases h3 : proto = str "unix"
    · exact Or.inr (Or.inr (Or.inl h3))
    rw [if_neg h3] at hok
    by_cases h4 : proto = str "http"
    · exact Or.inr (Or.inr (Or.inr (Or.inl h4)))
    rw [if_neg h4] at hok
    by_cases h5 : proto = str "socks5"
    · exact Or.inr (Or.inr (Or.inr (Or.inr (Or.inl h5))))
    rw [if_neg h5] at hok
    by_cases h6 : proto = str "stdio"
    · exact Or.inr (Or.inr (Or.inr (Or.inr (Or.inr (Or.inl h6)))))
    rw [if_neg h6] at hok
    by_cases h7 : proto = str "tproxy+tcp"
    · exact Or.inr (Or.inr (Or.inr (Or.inr (Or.inr (Or.inr (Or.inl h7))))))
    rw [if_neg h7] at hok
    by_cases h8 : proto = str "tproxy+udp"
    · exact Or.inr (Or.inr (Or.inr (Or.inr (Or.inr (Or.inr (Or.inr h8))))))
    rw [if_neg h8] at hok
    cases hok
  · intro hnone
    unfold parseTunnelArg
    rw [hnone]
  · intro proto ti hs hmem
    simp only [List.mem_cons, List.not_mem_nil, or_false, not_or] at hmem
    obtain ⟨n1, n2, n3, n4, n5, n6, n7, n8⟩ := hmem
    unfold parseTunnelArg
    rw [hs]
    dsimp only []
    rw [if_neg n1, if_neg n2, if_neg n3, if_neg n4, if_neg n5, if_neg n6,
      if_neg n7, if_neg n8]

/-- C6 witness: a route without a separator and one with an unknown scheme
both fail with the expected errors, and a tcp route is whitelisted. -/
theorem C6_scheme_whitelist_witness :
    parseTunnelArg (str "tcp local") = .error "cannot parse protocol" ∧
    parseTunnelArg (str "ftp://1:2.2.2.2:3")
        = .error "Invalid local protocol for tunnel" := by
  refine ⟨C6_scheme_whitelist.2.1 (by decide), ?_⟩
  exact C6_scheme_whitelist.2.2 (str "ftp") (str "1:2.2.2.2:3") (by decide) (by decide)

/-- C7: credentials are parsed from the query options exactly when both
`login` and `password` are present, the proxy-protocol flag is exactly the
presence of the `proxy_protocol` key, and the socks5, http and tcp parses
plumb these option readers into the resulting variant. -/
theorem C7_credentials_and_proxy_flag (ti : List Char) :
    (∀ opts, getCredentials opts
        = match optGet opts (str "login"), optGet opts (str "password") with
          | some lg, some pw => some (lg, pw)
          | _, _ => none) ∧
    (∀ opts, getProxyProtocol opts = (optGet opts (str "proxy_protocol")).isSome) ∧
    (∀ lb rem h p opts, parseLocalBind ti = .ok (lb, rem) →
      parseTunnelDest (str "0.0.0.0:0?" ++ rem) = .ok (h, p, opts) →
      parseTunnelArg (str "socks5://" ++ ti)
          = .ok ⟨.socks5 (getTimeout opts) (getCredentials opts), lb, (h, p)⟩ ∧
      parseTunnelArg (str "http://" ++ ti)
          = .ok ⟨.httpProxy (getTimeout opts) (getCredentials opts)
              (getProxyProtocol opts), lb, (h, p)⟩) ∧
    (∀ lb rem h p opts, parseLocalBind ti = .ok (lb, rem) →
      parseTunnelDest rem = .ok (h, p, opts) →
      parseTunnelArg (str "tcp://" ++ ti)
          = .ok ⟨.tcp (getProxyProtocol opts), lb, (h, p)⟩) := by
  refine ⟨?_, ?_, ?_, ?_⟩
  · intro opts
    unfold getCredentials
    rcases hl : optGet opts (str "login") with - | lg
    · rfl
    · rcases hpw : optGet opts (str "password") with - | pw <;> rfl
  · intro opts
    rfl
  · intro lb rem h p opts hb hd
    refine ⟨?_, ?_⟩
    · rw [parseTunnelArg_socks5, hb, ebind_ok]
      dsimp only []
      rw [hd, ebind_ok]
    · rw [parseTunnelArg_http, hb, ebind_ok]
      dsimp only []
      rw [hd, ebind_ok]
  · intro lb rem h p opts hb hd
    rw [parseTunnelArg_tcp, hb, ebind_ok]
    dsimp only []
    rw [hd, ebind_ok]

/-- C7 witness: login alone gives no credentials, login plus password gives
both, and a socks5 route with only a login parses without credentials. -/
theorem C7_credentials_and_proxy_flag_witness :
    getCredentials [(str "login", str "u")] = none ∧
    getCredentials [(str "password", str "p"), (str "login", str "u")]
        = some (str "u", str "p") ∧
    getProxyProtocol [(str "proxy_protocol", [])] = true ∧
    getProxyProtocol ([] : Options) = false ∧
    parseTunnelArg (str "socks5://" ++ str "127.0.0.1:1080?login=u")
        = .ok ⟨.socks5 (some 30) none, ⟨.v4 127 0 0 1, 1080⟩, (.ipv4 0 0 0 0, 0)⟩ := by
  refine ⟨by decide, by decide, by decide, by decide, ?_⟩
  have h5 := (C7_credentials_and_proxy_flag (str "127.0.0.1:1080?login=u")).2.2.1
    ⟨.v4 127 0 0 1, 1080⟩ (str "login=u") (.ipv4 0 0 0 0) 0
    [(str "login", str "u")] (by decide) (by decide)
  exact h5.1.trans (by decide)

/-- C10: a `timeout_sec` value that does not parse as an unsigned integer is
silently ignored: `getTimeout` falls back to the 30-second default and the
udp parse still succeeds. -/
theorem C10_malformed_timeout_ignored (ti : List Char) :
    (∀ opts v, optGet opts (str "timeout_sec") = some v →
      parseRustUInt (2 ^ 64 - 1) v = none → getTimeout opts = some 30) ∧
    (∀ lb rem h p opts, parseLocalBind ti = .ok (lb, rem) →
      parseTunnelDest rem = .ok (h, p, opts) →
      parseTunnelArg (str "udp://" ++ ti) = .ok ⟨.udp (getTimeout opts), lb, (h, p)⟩) := by
  refine ⟨?_, ?_⟩
  · intro opts v hv hbad
    rw [getTimeout_eq, hv]
    dsimp only [Option.bind]
    rw [hbad]
  · intro lb rem h p opts hb hd
    rw [parseTunnelArg_udp, hb, ebind_ok]
    dsimp only []
    rw [hd, ebind_ok]

/-- C10 witness: `timeout_sec=abc` yields the 30-second default and the
route still parses. -/
theorem C10_malformed_timeout_ignored_witness :
    getTimeout [(str "timeout_sec", str "abc")] = some 30 ∧
    parseTunnelArg (str "udp://" ++ str "1212:1.1.1.1:53?timeout_sec=abc")
        = .ok ⟨.udp (some 30), ⟨.v4 127 0 0 1, 1212⟩, (.ipv4 1 1 1 1, 53)⟩ := by
  have hga : optGet [(str "timeout_sec", str "abc")] (str "timeout_sec")
      = some (str "abc") := by decide
  refine ⟨(C10_malformed_timeout_ignored (str "")).1 _ _ hga (by decide), ?_⟩
  have h2 := (C10_malformed_timeout_ignored (str "1212:1.1.1.1:53?timeout_sec=abc")).2
    ⟨.v4 127 0 0 1, 1212⟩ (str "1.1.1.1:53?timeout_sec=abc") (.ipv4 1 1 1 1) 53
    [(str "timeout_sec", str "abc")] (by decide) (by decide)
  exact h2.trans (by decide)

/-- C5 (refuted): the CLI parser's mutual-exclusion of `tls_sni_disable`
with `tls_sni_override` and with `tls_ech_enable` is not enforced on the
config-file merge path: merging a default CLI configuration with a file that
sets the conflicting pairs yields a resolved configuration carrying both
members of each pair. -/
theorem C5_sni_exclusivity_not_enforced :
    ((mergeClientConfig clientDefault
        (some { clientDefault with
                  tls_sni_disable := true
                  tls_ech_enable := true })).1.tls_sni_disable = true ∧
     (mergeClientConfig clientDefault
        (some { clientDefault with
                  tls_sni_disable := true
                  tls_ech_enable := true })).1.tls_ech_enable = true) ∧
    ((mergeClientConfig clientDefault
        (some { clientDefault with
                  tls_sni_disable := true
                  tls_sni_override := some (str "h") })).1.tls_sni_disable = true ∧
     (mergeClientConfig clientDefault
        (some { clientDefault with
                  tls_sni_disable := true
                  tls_sni_override := some (str "h") })).1.tls_sni_override
        = some (str "h")) :=
  ⟨⟨rfl, rfl⟩, ⟨rfl, rfl⟩⟩

/-- C8: the CLI/config-file merge takes the file's value for a field exactly
when the CLI value equals the compiled-in default, for every Client field
and every Server field. -/
theorem C8_merge_field_selection (cli file : ClientCfg) (scli sfile : ServerCfg) :
    (mergeClientConfig cli (some file)).1
      = { local_to_remote :=
            if cli.local_to_remote = clientDefault.local_to_remote
            then file.local_to_remote else cli.local_to_remote
          remote_to_local :=
            if cli.remote_to_local = clientDefault.remote_to_local
            then file.remote_to_local else cli.remote_to_local
          socket_so_mark :=
            if cli.socket_so_mark = clientDefault.socket_so_mark
            then file.socket_so_mark else cli.socket_so_mark
          connection_min_idle :=
            if cli.connection_min_idle = clientDefault.connection_min_idle
            then file.connection_min_idle else cli.connection_min_idle
          connection_retry_max_backoff :=
            if cli.connection_retry_max_backoff
                = clientDefault.connection_retry_max_backoff
            then file.connection_retry_max_backoff
            else cli.connection_retry_max_backoff
          reverse_tunnel_connection_retry_max_backoff :=
            if cli.reverse_tunnel_connection_retry_max_backoff
                = clientDefault.reverse_tunnel_connection_retry_max_backoff
            then file.reverse_tunnel_connection_retry_max_backoff
            else cli.reverse_tunnel_connection_retry_max_backoff
          tls_sni_override :=
            if cli.tls_sni_override = clientDefault.tls_sni_override
            then file.tls_sni_override else cli.tls_sni_override
          tls_sni_disable :=
            if cli.tls_sni_disable = clientDefault.tls_sni_disable
            then file.tls_sni_disable else cli.tls_sni_disable
          tls_ech_enable :=
            if cli.tls_ech_enable = clientDefault.tls_ech_enable
            then file.tls_ech_enable else cli.tls_ech_enable
          tls_verify_certificate :=
            if cli.tls_verify_certificate = clientDefault.tls_verify_certificate
            then file.tls_verify_certificate else cli.tls_verify_certificate
          http_proxy :=
            if cli.http_proxy = clientDefault.http_proxy
            then file.http_proxy else cli.http_proxy
          http_proxy_login :=
            if cli.http_proxy_login = clientDefault.http_proxy_login
            then file.http_proxy_login else cli.http_proxy_login
          http_proxy_password :=
            if cli.http_proxy_password = clientDefault.http_proxy_password
            then file.http_proxy_password else cli.http_proxy_password
          http_upgrade_path_pfx :=
            if cli.http_upgrade_path_pfx = clientDefault.http_upgrade_path_pfx
            then file.http_upgrade_path_pfx else cli.http_upgrade_path_pfx
          http_upgrade_credentials :=
            if cli.http_upgrade_credentials = clientDefault.http_upgrade_credentials
            then file.http_upgrade_credentials else cli.http_upgrade_credentials
          websocket_ping_frequency :=
            if cli.websocket_ping_frequency = clientDefault.websocket_ping_frequency
            then file.websocket_ping_frequency else cli.websocket_ping_frequency
          websocket_mask_frame :=
            if cli.websocket_mask_frame = clientDefault.websocket_mask_frame
            then file.websocket_mask_frame else cli.websocket_mask_frame
          http_headers :=
            if cli.http_headers = clientDefault.http_headers
            then file.http_headers else cli.http_headers
          http_headers_file :=
            if cli.http_headers_file = clientDefault.http_headers_file
            then file.http_headers_file else cli.http_headers_file
          remote_addr :=
            if cli.remote_addr = clientDefault.remote_addr
            then file.remote_addr else cli.remote_addr
          tls_certificate :=
            if cli.tls_certificate = clientDefault.tls_certificate
            then file.tls_certificate else cli.tls_certificate
          tls_private_key :=
            if cli.tls_private_key = clientDefault.tls_private_key
            then file.tls_private_key else cli.tls_private_key
          dns_resolver :=
            if cli.dns_resolver = clientDefault.dns_resolver
            then file.dns_resolver else cli.dns_resolver
          dns_resolver_prefer_ipv4 :=
            if cli.dns_resolver_prefer_ipv4 = clientDefault.dns_resolver_prefer_ipv4
            then file.dns_resolver_prefer_ipv4 else cli.dns_resolver_prefer_ipv4 } ∧
    (mergeServerConfig scli (some sfile)).1
      = { remote_addr :=
            if scli.remote_addr = serverDefault.remote_addr
            then sfile.remote_addr else scli.remote_addr
          socket_so_mark :=
            if scli.socket_so_mark = serverDefault.socket_so_mark
            then sfile.socket_so_mark else scli.socket_so_mark
          websocket_ping_frequency :=
            if scli.websocket_ping_frequency = serverDefault.websocket_ping_frequency
            then sfile.websocket_ping_frequency else scli.websocket_ping_frequency
          websocket_mask_frame :=
            if scli.websocket_mask_frame = serverDefault.websocket_mask_frame
            then sfile.websocket_mask_frame else scli.websocket_mask_frame
          dns_resolver :=
            if scli.dns_resolver = serverDefault.dns_resolver
            then sfile.dns_resolver else scli.dns_resolver
          dns_resolver_prefer_ipv4 :=
            if scli.dns_resolver_prefer_ipv4 = serverDefault.dns_resolver_prefer_ipv4
            then sfile.dns_resolver_prefer_ipv4 else scli.dns_resolver_prefer_ipv4
          restrict_to :=
            if scli.restrict_to = serverDefault.restrict_to
            then sfile.restrict_to else scli.restrict_to
          restrict_http_upgrade_path_pfx :=
            if scli.restrict_http_upgrade_path_pfx
                = serverDefault.restrict_http_upgrade_path_pfx
            then sfile.restrict_http_upgrade_path_pfx
            else scli.restrict_http_upgrade_path_pfx
          restrict_config :=
            if scli.restrict_config = serverDefault.restrict_config
            then sfile.restrict_config else scli.restrict_config
          tls_certificate :=
            if scli.tls_certificate = serverDefault.tls_certificate
            then sfile.tls_certificate else scli.tls_certificate
          tls_private_key :=
            if scli.tls_private_key = serverDefault.tls_private_key
            then sfile.tls_private_key else scli.tls_private_key
          tls_client_ca_certs :=
            if scli.tls_client_ca_certs = serverDefault.tls_client_ca_certs
            then sfile.tls_client_ca_certs else scli.tls_client_ca_certs
          http_proxy :=
            if scli.http_proxy = serverDefault.http_proxy
            then sfile.http_proxy else scli.http_proxy
          http_proxy_login :=
            if scli.http_proxy_login = serverDefault.http_proxy_login
            then sfile.http_proxy_login else scli.http_proxy_login
          http_proxy_password :=
            if scli.http_proxy_password = serverDefault.http_proxy_password
            then sfile.http_proxy_password else scli.http_proxy_password
          remote_to_local_server_idle_timeout :=
            if scli.remote_to_local_server_idle_timeout
                = serverDefault.remote_to_local_server_idle_timeout
            then sfile.remote_to_local_server_idle_timeout
            else scli.remote_to_local_server_idle_timeout } := by
  constructor
  · dsimp only [mergeClientConfig, clientDefault]
    simp only [if_isEmpty_eq, if_isNone_eq, if_not_eq]
  · dsimp only [mergeServerConfig, serverDefault]
    simp only [if_isEmpty_eq, if_isNone_eq, if_not_eq]

/-- C9 (amended): when the text before the first colon is not parseable as an
IPv4 address (and is not a bracketed IPv6 bind), `parse_local_bind` falls
back to a 127.0.0.1 bind and re-reads that same leading text as the port:
the parse succeeds with bind 127.0.0.1 only when that text is a valid u16
port, and errors otherwise — it never yields an IPv6 bind for unbracketed
text.  The original claim's silent fallback with "the given port" fails for
invalid IPv4 text (see the counterexample). -/
theorem C9_unbracketed_bind_fallback {tok rest : List Char}
    (hne : tok ≠ []) (hnb : tok.head? ≠ some '[')
    (hc : ':' ∉ tok) (hq : '?' ∉ tok)
    (h4 : ipv4FromStr tok = none) :
    parseLocalBind (tok ++ ':' :: rest)
      = match parseRustUInt 65535 tok with
        | none => .error "cannot parse bind port"
        | some port => .ok (⟨.v4 127 0 0 1, port⟩, rest) := by
  obtain ⟨t, ts, rfl⟩ := List.exists_cons_of_ne_nil hne
  have ht : t ≠ ':' := fun h => hc (h ▸ List.mem_cons_self _ _)
  have ht2 : t ≠ '[' := by
    intro h
    exact hnb (by rw [h]; rfl)
  have hmem : ∀ x ∈ t :: ts, x ∉ [':', '?'] := by
    intro x hx hmem2
    rcases List.mem_cons.mp hmem2 with rfl | h2
    · exact hc hx
    rcases List.mem_cons.mp h2 with rfl | h3
    · exact hq hx
    exact absurd h3 (List.not_mem_nil x)
  unfold parseLocalBind
  rw [List.cons_append, if_neg (by simp [ht2]), ← List.cons_append,
    splitOnceCh_mk hc]
  simp only [Option.getD_some]
  rw [h4]
  dsimp only []
  rw [exceptBind_ok_eq]
  dsimp only []
  rw [List.cons_append, List.dropWhile_cons, if_neg (by simp [ht]),
    ← List.cons_append, splitOnceAny_mk (by decide) hmem]
  simp only [Option.getD_some]

/-- C9 witness: invalid IPv4 bind text `256.0.0.1` makes the parse fail at
the port, while plain port text `9999` falls back to a 127.0.0.1 bind. -/
theorem C9_unbracketed_bind_fallback_witness :
    parseLocalBind (str "256.0.0.1" ++ ':' :: str "443:example.com:80")
        = .error "cannot parse bind port" ∧
    parseLocalBind (str "9999" ++ ':' :: str "example.com:80")
        = .ok (⟨.v4 127 0 0 1, 9999⟩, str "example.com:80") := by
  constructor
  · have h1 := @C9_unbracketed_bind_fallback (str "256.0.0.1")
      (str "443:example.com:80") (by decide) (by decide) (by decide)
      (by decide) (by decide)
    exact h1.trans (by decide)
  · have h2 := @C9_unbracketed_bind_fallback (str "9999")
      (str "example.com:80") (by decide) (by decide) (by decide)
      (by decide) (by decide)
    exact h2.trans (by decide)

/-- C9 counterexample: a tcp route whose bind text `256.0.0.1` is not a
valid IPv4 address does not silently bind 127.0.0.1 with the given port; the
whole parse fails. -/
theorem C9_invalid_bind_counterexample :
    parseTunnelArg (str "tcp://256.0.0.1:443:example.com:80")
      = .error "cannot parse bind port" := by
  decide
